import Mathlib

/-!
Verification of the expense store and reporting engine of the
Personal-Finance-Tracker repository (source: `src/week4.py`, class
`ExpenseTracker`).

Modelling conventions, chosen to mirror the Python source:

* Strings are Lean `String`s; all string manipulation is done on the
  underlying character lists with structurally recursive functions, so that
  every definition evaluates by kernel reduction.
* CPython `float` is modelled exactly: a `float` value is the rational that
  the IEEE-754 binary64 number denotes, and every operation (literal
  parsing, `+`, `round(_, 2)`, `"%.2f"` formatting) first computes the exact
  rational result and then rounds it to 53 significant bits with
  round-to-nearest, ties-to-even (`fp64` below).  Exponent range is not
  clamped (no overflow/subnormal handling): all values arising here are far
  inside the normal range.  The special strings accepted by Python's
  `float()` (`nan`, `inf`, `infinity`), embedded underscores and surrounding
  whitespace are not modelled; no claim exercises them.
* `datetime.strptime(s, "%Y-%m-%d")` is modelled by `parseDate`: CPython's
  `_strptime` matches `%Y` against exactly four digits, `%m`/`%d` against
  one or two digits, and `datetime` then validates the calendar date
  (month 1..12, day 1..days-in-month, year ≥ 1).  `strftime("%Y-%m-%d")` on
  glibc prints the year *unpadded* (year 5 → "5") and zero-pads month and
  day to two digits; `formatDate` reproduces exactly that (this asymmetry is
  the source of a genuine bug, see the claim-7 theorem).
* The backing CSV file is modelled as the list of its data rows after the
  constant header row; each row carries the five written fields.  The `csv`
  module's quoting round-trips fields verbatim, so a row is just a record of
  five strings (the same shape as `Expense`).
* `uuid.uuid4()` and `datetime.today()` are nondeterministic inputs; the
  model takes the fresh id and today's date as explicit parameters.
-/

/-- The decimal digit characters, by value (`"0123456789"[n]`). -/
def digitToChar : Nat → Char
  | 0 => '0'
  | 1 => '1'
  | 2 => '2'
  | 3 => '3'
  | 4 => '4'
  | 5 => '5'
  | 6 => '6'
  | 7 => '7'
  | 8 => '8'
  | _ => '9'

/-- ASCII decimal digit test (the class `\d` of `_strptime`'s regexes and
the digits accepted inside a `float()` literal). -/
def isDigitCh (c : Char) : Bool := 48 ≤ c.toNat && c.toNat ≤ 57

/-- Value of a decimal digit string, folded left with accumulator `a`. -/
def digitsValFrom : Nat → List Char → Nat
  | a, [] => a
  | a, c :: t => digitsValFrom (10 * a + (c.toNat - 48)) t

/-- Value of a decimal digit string. -/
def digitsVal (l : List Char) : Nat := digitsValFrom 0 l

/-- Decimal digits of `n`, most significant first; fuelled so that the
recursion is structural (any fuel above `n` is enough). -/
def natDigitsAux : Nat → Nat → List Char
  | 0, _ => []
  | f + 1, n =>
    if n < 10 then [digitToChar n]
    else natDigitsAux f (n / 10) ++ [digitToChar (n % 10)]

/-- Decimal digits of `n`, most significant first, no leading zeros
(CPython's `str` of a nonnegative `int`). -/
def natDigits (n : Nat) : List Char := natDigitsAux (n + 1) n

/-- Python `str(n)` for a natural number. -/
def natStr (n : Nat) : String := ⟨natDigits n⟩

/-- Python `f"{n:02d}"`: zero-pad to (at least) two digits. -/
def pad2 (n : Nat) : List Char := if n < 10 then '0' :: natDigits n else natDigits n

theorem digitsValFrom_nil (a : Nat) : digitsValFrom a [] = a := rfl

theorem digitsValFrom_cons (a : Nat) (c : Char) (t : List Char) :
    digitsValFrom a (c :: t) = digitsValFrom (10 * a + (c.toNat - 48)) t := rfl

theorem natDigitsAux_zero (n : Nat) : natDigitsAux 0 n = [] := rfl

theorem natDigitsAux_succ (f n : Nat) :
    natDigitsAux (f + 1) n =
      if n < 10 then [digitToChar n]
      else natDigitsAux f (n / 10) ++ [digitToChar (n % 10)] := rfl

theorem digitToChar_toNat : ∀ n, n < 10 → (digitToChar n).toNat = 48 + n := by decide

theorem digitToChar_isDigit : ∀ n, n < 10 → isDigitCh (digitToChar n) = true := by decide

theorem digitToChar_ne : ∀ n, n < 10 →
    digitToChar n ≠ '-' ∧ digitToChar n ≠ '+' ∧ digitToChar n ≠ '.' ∧
    digitToChar n ≠ 'e' ∧ digitToChar n ≠ 'E' := by decide

theorem isDigitCh_bounds {c : Char} (h : isDigitCh c = true) :
    48 ≤ c.toNat ∧ c.toNat ≤ 57 := by
  simpa [isDigitCh] using h

theorem digitsValFrom_eq (l : List Char) : ∀ a : Nat,
    digitsValFrom a l = a * 10 ^ l.length + digitsVal l := by
  induction l with
  | nil =>
    intro a
    rw [digitsValFrom_nil]
    simp [digitsVal, digitsValFrom_nil]
  | cons c t ih =>
    intro a
    rw [digitsValFrom_cons, ih]
    have h2 : digitsVal (c :: t) = digitsValFrom (10 * 0 + (c.toNat - 48)) t := by
      simp only [digitsVal]
      rw [digitsValFrom_cons]
    rw [h2, ih]
    simp [List.length_cons, pow_succ]
    ring

theorem digitsVal_append (l₁ l₂ : List Char) :
    digitsVal (l₁ ++ l₂) = digitsVal l₁ * 10 ^ l₂.length + digitsVal l₂ := by
  have h : ∀ (l : List Char) (a : Nat),
      digitsValFrom a (l ++ l₂) = digitsValFrom (digitsValFrom a l) l₂ := by
    intro l
    induction l with
    | nil => intro a; rw [List.nil_append, digitsValFrom_nil]
    | cons c t ih =>
      intro a
      rw [List.cons_append, digitsValFrom_cons, digitsValFrom_cons]
      exact ih _
  show digitsValFrom 0 (l₁ ++ l₂) = _
  rw [h l₁ 0, digitsValFrom_eq]
  rfl

theorem digitsVal_cons (c : Char) (t : List Char) :
    digitsVal (c :: t) = (c.toNat - 48) * 10 ^ t.length + digitsVal t := by
  show digitsValFrom 0 (c :: t) = _
  rw [digitsValFrom_cons, digitsValFrom_eq]
  norm_num

theorem digitsVal_lt (l : List Char) (h : ∀ c ∈ l, isDigitCh c = true) :
    digitsVal l < 10 ^ l.length := by
  induction l with
  | nil => simp [digitsVal, digitsValFrom_nil]
  | cons c t ih =>
    rw [digitsVal_cons]
    have hc := isDigitCh_bounds (h c (by simp))
    have ht := ih (fun x hx => h x (by simp [hx]))
    have : c.toNat - 48 ≤ 9 := by omega
    calc (c.toNat - 48) * 10 ^ t.length + digitsVal t
        ≤ 9 * 10 ^ t.length + digitsVal t := by
          have := Nat.mul_le_mul_right (10 ^ t.length) this
          omega
      _ < 10 ^ (c :: t).length := by
          simp [List.length_cons, pow_succ]
          omega

theorem natDigitsAux_congr : ∀ f g n : Nat, n < f → n < g →
    natDigitsAux f n = natDigitsAux g n := by
  intro f
  induction f with
  | zero => intro g n h; omega
  | succ f ih =>
    intro g n hf hg
    match g with
    | 0 => omega
    | g + 1 =>
      show natDigitsAux (f + 1) n = natDigitsAux (g + 1) n
      rw [natDigitsAux_succ, natDigitsAux_succ]
      by_cases h10 : n < 10
      · simp [h10]
      · have hdiv : n / 10 < n := Nat.div_lt_self (by omega) (by omega)
        simp only [h10, if_false]
        rw [ih g (n / 10) (by omega) (by omega)]

theorem natDigits_lt10 {n : Nat} (h : n < 10) : natDigits n = [digitToChar n] := by
  show natDigitsAux (n + 1) n = _
  rw [natDigitsAux_succ]
  simp [h]

theorem natDigits_ge10 {n : Nat} (h : 10 ≤ n) :
    natDigits n = natDigits (n / 10) ++ [digitToChar (n % 10)] := by
  show natDigitsAux (n + 1) n = _
  rw [natDigitsAux_succ]
  simp only [Nat.not_lt.mpr h, if_false]
  have hdiv : n / 10 < n := Nat.div_lt_self (by omega) (by omega)
  rw [natDigitsAux_congr n (n / 10 + 1) (n / 10) hdiv (by omega)]
  rfl

theorem digitsVal_nil : digitsVal [] = 0 := rfl

theorem digitsVal_natDigits (n : Nat) : digitsVal (natDigits n) = n := by
  induction n using Nat.strong_induction_on with
  | _ n ih =>
    by_cases h : n < 10
    · rw [natDigits_lt10 h, digitsVal_cons, digitsVal_nil, digitToChar_toNat n h]
      simp
    · have h10 : 10 ≤ n := by omega
      rw [natDigits_ge10 h10, digitsVal_append]
      have hdiv : n / 10 < n := Nat.div_lt_self (by omega) (by omega)
      rw [ih (n / 10) hdiv]
      have hmod : n % 10 < 10 := Nat.mod_lt _ (by omega)
      rw [digitsVal_cons, digitsVal_nil, digitToChar_toNat _ hmod]
      simp
      omega

theorem natDigits_all_digit (n : Nat) : ∀ c ∈ natDigits n, isDigitCh c = true := by
  induction n using Nat.strong_induction_on with
  | _ n ih =>
    by_cases h : n < 10
    · rw [natDigits_lt10 h]
      intro c hc
      simp at hc
      rw [hc]; exact digitToChar_isDigit n h
    · rw [natDigits_ge10 (by omega)]
      intro c hc
      rw [List.mem_append] at hc
      rcases hc with hc | hc
      · exact ih (n / 10) (Nat.div_lt_self (by omega) (by omega)) c hc
      · simp at hc
        rw [hc]
        exact digitToChar_isDigit _ (Nat.mod_lt _ (by omega))

theorem natDigits_ne_nil (n : Nat) : natDigits n ≠ [] := by
  by_cases h : n < 10
  · rw [natDigits_lt10 h]; simp
  · rw [natDigits_ge10 (by omega)]; simp

theorem natDigits_length_lt100 {n : Nat} (h : 10 ≤ n) (h2 : n < 100) :
    (natDigits n).length = 2 := by
  rw [natDigits_ge10 h]
  have : n / 10 < 10 := by omega
  rw [natDigits_lt10 this]
  rfl

theorem pad2_all_digit (n : Nat) : ∀ c ∈ pad2 n, isDigitCh c = true := by
  intro c hc
  unfold pad2 at hc
  by_cases h : n < 10
  · rw [if_pos h] at hc
    rcases List.mem_cons.mp hc with h0 | h1
    · rw [h0]; decide
    · exact natDigits_all_digit n c h1
  · rw [if_neg h] at hc
    exact natDigits_all_digit n c hc

theorem pad2_length {n : Nat} (h : n < 100) : (pad2 n).length = 2 := by
  unfold pad2
  by_cases h10 : n < 10
  · simp [h10, natDigits_lt10 h10]
  · simp [h10, natDigits_length_lt100 (by omega) h]

theorem digitsVal_pad2 {n : Nat} (h : n < 100) : digitsVal (pad2 n) = n := by
  unfold pad2
  by_cases h10 : n < 10
  · simp only [h10, if_true]
    rw [natDigits_lt10 h10]
    show digitsVal ['0', digitToChar n] = n
    rw [digitsVal_cons, digitsVal_cons, digitsVal_nil, digitToChar_toNat n h10]
    have h0 : ('0' : Char).toNat = 48 := rfl
    rw [h0]
    simp
  · simp only [h10, if_false]
    exact digitsVal_natDigits n

/-- Lexicographic strict comparison of character lists by code point:
CPython's `str.__lt__` (a shorter strict prefix is smaller). -/
def lexLt : List Char → List Char → Bool
  | [], [] => false
  | [], _ :: _ => true
  | _ :: _, [] => false
  | a :: as, b :: bs =>
    if a.toNat < b.toNat then true
    else if b.toNat < a.toNat then false
    else lexLt as bs

/-- String `x <= y`, expressed through `lexLt`. -/
def lexLe (x y : List Char) : Bool := !(lexLt y x)

theorem lexLt_nil_nil : lexLt [] [] = false := rfl

theorem lexLt_nil_cons (b : Char) (bs : List Char) : lexLt [] (b :: bs) = true := rfl

theorem lexLt_cons_nil (a : Char) (as : List Char) : lexLt (a :: as) [] = false := rfl

theorem lexLt_cons_cons (a b : Char) (as bs : List Char) :
    lexLt (a :: as) (b :: bs) =
      if a.toNat < b.toNat then true
      else if b.toNat < a.toNat then false
      else lexLt as bs := rfl

theorem lexLt_asymm : ∀ x y : List Char, lexLt x y = true → lexLt y x = false := by
  intro x
  induction x with
  | nil =>
    intro y h
    cases y with
    | nil => rw [lexLt_nil_nil] at h; exact absurd h (by simp)
    | cons b bs => exact lexLt_cons_nil b bs
  | cons a as ih =>
    intro y h
    cases y with
    | nil => rw [lexLt_cons_nil] at h; exact absurd h (by simp)
    | cons b bs =>
      rw [lexLt_cons_cons] at h
      rw [lexLt_cons_cons]
      by_cases h1 : a.toNat < b.toNat
      · have h2 : ¬ b.toNat < a.toNat := by omega
        rw [if_neg h2, if_pos h1]
      · by_cases h2 : b.toNat < a.toNat
        · rw [if_neg h1, if_pos h2] at h
          exact absurd h (by simp)
        · rw [if_neg h1, if_neg h2] at h
          rw [if_neg h2, if_neg h1]
          exact ih bs h

theorem lexLt_trans : ∀ x y z : List Char,
    lexLt x y = true → lexLt y z = true → lexLt x z = true := by
  intro x
  induction x with
  | nil =>
    intro y z hxy hyz
    cases z with
    | nil =>
      cases y with
      | nil => exact hxy
      | cons b bs => rw [lexLt_cons_nil] at hyz; exact absurd hyz (by simp)
    | cons c cs => exact lexLt_nil_cons c cs
  | cons a as ih =>
    intro y z hxy hyz
    cases y with
    | nil => rw [lexLt_cons_nil] at hxy; exact absurd hxy (by simp)
    | cons b bs =>
      cases z with
      | nil => rw [lexLt_cons_nil] at hyz; exact absurd hyz (by simp)
      | cons c cs =>
        rw [lexLt_cons_cons] at hxy hyz
        rw [lexLt_cons_cons]
        rcases Nat.lt_trichotomy a.toNat b.toNat with h1 | h1 | h1
        · rcases Nat.lt_trichotomy b.toNat c.toNat with h2 | h2 | h2
          · rw [if_pos (Nat.lt_trans h1 h2)]
          · rw [if_pos (h2 ▸ h1)]
          · rw [if_neg (by omega), if_pos h2] at hyz
            exact absurd hyz (by simp)
        · rcases Nat.lt_trichotomy b.toNat c.toNat with h2 | h2 | h2
          · rw [if_pos (h1 ▸ h2)]
          · rw [if_neg (by omega), if_neg (by omega)]
            rw [if_neg (by omega), if_neg (by omega)] at hxy
            rw [if_neg (by omega), if_neg (by omega)] at hyz
            exact ih bs cs hxy hyz
          · rw [if_neg (by omega), if_pos h2] at hyz
            exact absurd hyz (by simp)
        · rw [if_neg (by omega), if_pos h1] at hxy
          exact absurd hxy (by simp)

/-- One step of the stable insertion sort that models CPython's stable
sort in descending order: a later element is inserted *after* every
existing element that is not strictly below it. -/
def insertBy (lt : α → α → Bool) (e : α) : List α → List α
  | [] => [e]
  | x :: xs => if lt x e then e :: x :: xs else x :: insertBy lt e xs

/-- Stable descending sort (the unique stable sort result, hence extensionally
CPython's `list.sort(key=..., reverse=True)` / `sorted(key=-...)`). -/
def sortByDesc (lt : α → α → Bool) (l : List α) : List α :=
  l.foldl (fun acc e => insertBy lt e acc) []

theorem insertBy_nil (lt : α → α → Bool) (e : α) : insertBy lt e [] = [e] := rfl

theorem insertBy_cons (lt : α → α → Bool) (e x : α) (xs : List α) :
    insertBy lt e (x :: xs) =
      if lt x e then e :: x :: xs else x :: insertBy lt e xs := rfl

theorem insertBy_cons_pos {lt : α → α → Bool} {e x : α} {xs : List α}
    (h : lt x e = true) : insertBy lt e (x :: xs) = e :: x :: xs := by
  rw [insertBy_cons, if_pos h]

theorem insertBy_cons_neg {lt : α → α → Bool} {e x : α} {xs : List α}
    (h : lt x e = false) : insertBy lt e (x :: xs) = x :: insertBy lt e xs := by
  rw [insertBy_cons, if_neg (by simp [h])]

theorem insertBy_perm (lt : α → α → Bool) (e : α) :
    ∀ l : List α, (insertBy lt e l).Perm (e :: l) := by
  intro l
  induction l with
  | nil => rw [insertBy_nil]
  | cons x xs ih =>
    cases h : lt x e with
    | true => rw [insertBy_cons_pos h]
    | false =>
      rw [insertBy_cons_neg h]
      exact (ih.cons x).trans (List.Perm.swap e x xs)

theorem insertBy_mem {lt : α → α → Bool} {e y : α} {l : List α}
    (h : y ∈ insertBy lt e l) : y = e ∨ y ∈ l := by
  have := (insertBy_perm lt e l).mem_iff.mp h
  simpa using this

theorem insertBy_pairwise {lt : α → α → Bool}
    (hasymm : ∀ a b, lt a b = true → lt b a = false)
    (htrans : ∀ a b c, lt a b = true → lt b c = true → lt a c = true)
    (e : α) : ∀ l : List α, l.Pairwise (fun a b => lt a b = false) →
    (insertBy lt e l).Pairwise (fun a b => lt a b = false) := by
  intro l
  induction l with
  | nil => intro _; rw [insertBy_nil]; exact List.pairwise_singleton _ _
  | cons x xs ih =>
    intro h
    rw [List.pairwise_cons] at h
    obtain ⟨hx, hxs⟩ := h
    cases hlt : lt x e with
    | true =>
      rw [insertBy_cons_pos hlt, List.pairwise_cons]
      constructor
      · intro y hy
        rcases List.mem_cons.mp hy with h0 | hy'
        · rw [h0]; exact hasymm x e hlt
        · have hx' := hx y hy'
          cases hey : lt e y with
          | false => rfl
          | true =>
            have := htrans x e y hlt hey
            rw [this] at hx'
            exact absurd hx' (by simp)
      · rw [List.pairwise_cons]; exact ⟨hx, hxs⟩
    | false =>
      rw [insertBy_cons_neg hlt, List.pairwise_cons]
      constructor
      · intro y hy
        rcases insertBy_mem hy with rfl | hy'
        · exact hlt
        · exact hx y hy'
      · exact ih hxs

theorem sortByDesc_perm (lt : α → α → Bool) (l : List α) :
    (sortByDesc lt l).Perm l := by
  have h : ∀ (l acc : List α),
      (l.foldl (fun acc e => insertBy lt e acc) acc).Perm (acc ++ l) := by
    intro l
    induction l with
    | nil => intro acc; simp
    | cons x xs ih =>
      intro acc
      rw [List.foldl_cons]
      refine (ih (insertBy lt x acc)).trans ?_
      have h1 : (insertBy lt x acc ++ xs).Perm ((x :: acc) ++ xs) :=
        (insertBy_perm lt x acc).append_right xs
      refine h1.trans ?_
      exact List.perm_middle.symm
  simpa using h l []

theorem sortByDesc_pairwise {lt : α → α → Bool}
    (hasymm : ∀ a b, lt a b = true → lt b a = false)
    (htrans : ∀ a b c, lt a b = true → lt b c = true → lt a c = true)
    (l : List α) : (sortByDesc lt l).Pairwise (fun a b => lt a b = false) := by
  have h : ∀ (l acc : List α), acc.Pairwise (fun a b => lt a b = false) →
      (l.foldl (fun acc e => insertBy lt e acc) acc).Pairwise
        (fun a b => lt a b = false) := by
    intro l
    induction l with
    | nil => intro acc h; simpa using h
    | cons x xs ih =>
      intro acc h
      rw [List.foldl_cons]
      exact ih _ (insertBy_pairwise hasymm htrans x acc h)
  exact h l [] (by simp)

/-- ASCII whitespace stripped by `str.strip()` (the full method also strips
other Unicode whitespace; no claim exercises that). -/
def isSpaceCh (c : Char) : Bool :=
  c == ' ' || c == '\t' || c == '\n' || c == '\r' || c == '\x0b' || c == '\x0c'

/-- Python `str.strip()`: drop leading and trailing whitespace. -/
def pyStrip (s : String) : String :=
  ⟨((s.data.dropWhile isSpaceCh).reverse.dropWhile isSpaceCh).reverse⟩

/-- ASCII lowering of one character (`str.lower()` restricted to ASCII; the
categories compared by the program are ASCII in every claim). -/
def lowerCh (c : Char) : Char :=
  if 65 ≤ c.toNat ∧ c.toNat ≤ 90 then Char.ofNat (c.toNat + 32) else c

/-- Python `str.lower()`. -/
def lowerStr (s : String) : String := ⟨s.data.map lowerCh⟩

/-- Split a character list at every `'-'` (the shape of matching the fixed
format `"%Y-%m-%d"`, whose fields are all-digit and cannot contain `'-'`). -/
def splitDash : List Char → List (List Char)
  | [] => [[]]
  | c :: cs =>
    if c = '-' then [] :: splitDash cs
    else
      match splitDash cs with
      | [] => [[c]]
      | h :: t => (c :: h) :: t

theorem splitDash_nil : splitDash [] = [[]] := rfl

theorem splitDash_cons (c : Char) (cs : List Char) :
    splitDash (c :: cs) =
      if c = '-' then [] :: splitDash cs
      else
        match splitDash cs with
        | [] => [[c]]
        | h :: t => (c :: h) :: t := rfl

theorem splitDash_ne_nil : ∀ l : List Char, splitDash l ≠ [] := by
  intro l
  cases l with
  | nil => rw [splitDash_nil]; simp
  | cons c cs =>
    rw [splitDash_cons]
    by_cases h : c = '-'
    · simp [h]
    · simp only [h, if_false]
      cases splitDash cs <;> simp

theorem splitDash_no_dash : ∀ l : List Char, '-' ∉ l → splitDash l = [l] := by
  intro l
  induction l with
  | nil => intro _; rfl
  | cons c cs ih =>
    intro h
    have hc : c ≠ '-' := fun hc => h (by simp [hc])
    have hcs : '-' ∉ cs := fun hm => h (by simp [hm])
    rw [splitDash_cons, if_neg hc, ih hcs]

theorem splitDash_append (a : List Char) (r : List Char) (h : '-' ∉ a) :
    splitDash (a ++ '-' :: r) = a :: splitDash r := by
  induction a with
  | nil =>
    rw [List.nil_append, splitDash_cons, if_pos rfl]
  | cons c cs ih =>
    have hc : c ≠ '-' := fun hc => h (by simp [hc])
    have hcs : '-' ∉ cs := fun hm => h (by simp [hm])
    rw [List.cons_append, splitDash_cons, if_neg hc, ih hcs]

/-- Days in a month of the proleptic Gregorian calendar used by
`datetime` (which is what makes `"2024-02-30"` fail to parse). -/
def monthLen (y m : Nat) : Nat :=
  if m = 2 then (if (y % 4 = 0 ∧ y % 100 ≠ 0) ∨ y % 400 = 0 then 29 else 28)
  else if m = 4 ∨ m = 6 ∨ m = 9 ∨ m = 11 then 30 else 31

/-- Model of `datetime.strptime(s, "%Y-%m-%d")`, reduced to the date triple it
produces.  `_strptime` matches `%Y` with the regex `\d\d\d\d` (exactly four
digits), `%m` with `1[0-2]|0[1-9]|[1-9]` and `%d` with
`3[01]|[12]\d|0[1-9]|[1-9]` (one or two digits, nonzero value), requires the
literal `-` separators and the whole string to be consumed, and `datetime`
then rejects day-out-of-range months and year 0. -/
def parseDate (s : String) : Option (Nat × Nat × Nat) :=
  match splitDash s.data with
  | [ys, ms, ds] =>
    if ys.length = 4 ∧ ys.all isDigitCh ∧
       1 ≤ ms.length ∧ ms.length ≤ 2 ∧ ms.all isDigitCh ∧
       1 ≤ ds.length ∧ ds.length ≤ 2 ∧ ds.all isDigitCh then
      if 1 ≤ digitsVal ys ∧ 1 ≤ digitsVal ms ∧ digitsVal ms ≤ 12 ∧
         1 ≤ digitsVal ds ∧ digitsVal ds ≤ monthLen (digitsVal ys) (digitsVal ms) then
        some (digitsVal ys, digitsVal ms, digitsVal ds)
      else none
    else none
  | _ => none

/-- Model of `date_obj.strftime("%Y-%m-%d")` as observable on glibc: the year is
printed unpadded (year 5 gives "5", not "0005"), while month and day are
zero-padded to two digits. -/
def formatDate (t : Nat × Nat × Nat) : String :=
  ⟨natDigits t.1 ++ '-' :: (pad2 t.2.1 ++ '-' :: pad2 t.2.2)⟩

/-- Round a rational to the nearest integer, ties to even (the rounding used
by IEEE-754 binary64 arithmetic and by CPython's float formatting and
`round`). -/
def rhe (q : ℚ) : ℤ :=
  if q - ⌊q⌋ < 1/2 then ⌊q⌋
  else if 1/2 < q - ⌊q⌋ then ⌊q⌋ + 1
  else if 2 ∣ ⌊q⌋ then ⌊q⌋ else ⌊q⌋ + 1

/-- Two to the power `k` in `ℚ` for an integer exponent. -/
def pow2z (k : ℤ) : ℚ := if 0 ≤ k then 2 ^ k.toNat else ((2 : ℚ) ^ (-k).toNat)⁻¹

/-- Number of binary digits of `n` (0 for 0); fuelled structural recursion. -/
def bitlenAux : Nat → Nat → Nat
  | 0, _ => 0
  | f + 1, n => if n = 0 then 0 else bitlenAux f (n / 2) + 1

def bitlen (n : Nat) : Nat := bitlenAux (n + 1) n

/-- Round a rational to the nearest IEEE-754 binary64 value, ties to even
(53 significant bits, unbounded exponent range: overflow and subnormals are
outside every value this program manipulates). -/
def fp64 (q : ℚ) : ℚ :=
  if q = 0 then 0
  else
    let s : ℚ := if q < 0 then -1 else 1
    let e0 : ℤ := (bitlen q.num.natAbs : ℤ) - (bitlen q.den : ℤ)
    let e : ℤ := if pow2z e0 ≤ |q| then e0 else e0 - 1
    s * (rhe (|q| * pow2z (52 - e)) : ℚ) * pow2z (e - 52)

theorem rhe_int (z : ℤ) : rhe ((z : ℚ)) = z := by
  unfold rhe
  rw [Int.floor_intCast]
  norm_num

theorem rhe_lt {q : ℚ} {f : ℤ} (h1 : (f : ℚ) ≤ q) (h2 : q < (f : ℚ) + 1/2) :
    rhe q = f := by
  have hf : ⌊q⌋ = f := by
    rw [Int.floor_eq_iff]
    constructor
    · exact h1
    · push_cast
      linarith
  unfold rhe
  rw [hf, if_pos (by linarith)]

theorem rhe_gt {q : ℚ} {f : ℤ} (h1 : (f : ℚ) + 1/2 < q) (h2 : q < (f : ℚ) + 1) :
    rhe q = f + 1 := by
  have hf : ⌊q⌋ = f := by
    rw [Int.floor_eq_iff]
    constructor
    · linarith
    · push_cast
      linarith
  unfold rhe
  rw [hf, if_neg (by linarith), if_pos (by linarith)]

theorem rhe_sub_le (q : ℚ) : |(rhe q : ℚ) - q| ≤ 1/2 := by
  have h1 : (⌊q⌋ : ℚ) ≤ q := Int.floor_le q
  have h2 : q < (⌊q⌋ : ℚ) + 1 := Int.lt_floor_add_one q
  unfold rhe
  split_ifs with hc1 hc2 hc3 <;> rw [abs_le] <;> constructor <;> push_cast <;> linarith

theorem rhe_nonneg {q : ℚ} (h : 0 ≤ q) : 0 ≤ rhe q := by
  have h1 : (0 : ℤ) ≤ ⌊q⌋ := Int.floor_nonneg.mpr h
  unfold rhe
  split_ifs <;> omega

theorem pow2z_eq (k : ℤ) : pow2z k = (2 : ℚ) ^ k := by
  unfold pow2z
  split_ifs with h
  · rw [← zpow_natCast]
    congr 1
    omega
  · rw [← zpow_natCast, ← zpow_neg]
    congr 1
    omega

theorem pow2z_pos (k : ℤ) : 0 < pow2z k := by
  rw [pow2z_eq]
  positivity

theorem pow2z_natCast (n : Nat) : pow2z (n : ℤ) = (2 : ℚ) ^ n := by
  unfold pow2z
  rw [if_pos (by omega)]
  norm_num

theorem pow2z_strictMono {a b : ℤ} (h : a < b) : pow2z a < pow2z b := by
  rw [pow2z_eq, pow2z_eq]
  exact zpow_lt_zpow_right₀ (by norm_num) h

theorem pow2z_mono {a b : ℤ} (h : a ≤ b) : pow2z a ≤ pow2z b := by
  rcases eq_or_lt_of_le h with rfl | h
  · exact le_refl _
  · exact le_of_lt (pow2z_strictMono h)

theorem pow2z_bracket_unique {q : ℚ} {e₁ e₂ : ℤ}
    (h1 : pow2z e₁ ≤ q) (h2 : q < pow2z (e₁ + 1))
    (h3 : pow2z e₂ ≤ q) (h4 : q < pow2z (e₂ + 1)) : e₁ = e₂ := by
  by_contra h
  rcases lt_or_gt_of_ne h with hlt | hlt
  · have hle : e₁ + 1 ≤ e₂ := by omega
    have := le_trans (pow2z_mono hle) h3
    linarith
  · have hle : e₂ + 1 ≤ e₁ := by omega
    have := le_trans (pow2z_mono hle) h1
    linarith

theorem bitlenAux_zero (n : Nat) : bitlenAux 0 n = 0 := rfl

theorem bitlenAux_succ (f n : Nat) :
    bitlenAux (f + 1) n = if n = 0 then 0 else bitlenAux f (n / 2) + 1 := rfl

theorem bitlenAux_congr : ∀ f g n : Nat, n < f → n < g →
    bitlenAux f n = bitlenAux g n := by
  intro f
  induction f with
  | zero => intro g n h; omega
  | succ f ih =>
    intro g n hf hg
    match g with
    | 0 => omega
    | g + 1 =>
      rw [bitlenAux_succ, bitlenAux_succ]
      by_cases h0 : n = 0
      · simp [h0]
      · simp only [h0, if_false]
        rw [ih g (n / 2) (by omega) (by omega)]

theorem bitlen_zero : bitlen 0 = 0 := rfl

theorem bitlen_eq {n : Nat} (h : n ≠ 0) : bitlen n = bitlen (n / 2) + 1 := by
  show bitlenAux (n + 1) n = _
  rw [bitlenAux_succ]
  simp only [h, if_false]
  rw [bitlenAux_congr n (n / 2 + 1) (n / 2) (by omega) (by omega)]
  rfl

theorem bitlen_pos {n : Nat} (h : n ≠ 0) : 1 ≤ bitlen n := by
  rw [bitlen_eq h]
  omega

theorem bitlen_bounds (n : Nat) (h : n ≠ 0) :
    2 ^ (bitlen n - 1) ≤ n ∧ n < 2 ^ bitlen n := by
  induction n using Nat.strong_induction_on with
  | _ n ih =>
    rw [bitlen_eq h]
    by_cases h2 : n / 2 = 0
    · have h1 : n = 1 := by omega
      subst h1
      simp [bitlen_zero]
    · obtain ⟨ih1, ih2⟩ := ih (n / 2) (by omega) h2
      have hk1 : 1 ≤ bitlen (n / 2) := bitlen_pos h2
      have hkk : bitlen (n / 2) - 1 + 1 = bitlen (n / 2) := by omega
      have hp1 : 2 ^ bitlen (n / 2) = 2 ^ (bitlen (n / 2) - 1) * 2 := by
        rw [← pow_succ, hkk]
      have hp2 : 2 ^ (bitlen (n / 2) + 1) = 2 ^ bitlen (n / 2) * 2 := by
        rw [pow_succ]
      constructor
      · have : bitlen (n / 2) + 1 - 1 = bitlen (n / 2) := by omega
        rw [this, hp1]
        omega
      · rw [hp2]
        omega

theorem pow2z_sub (a b : ℤ) : pow2z (a - b) = pow2z a / pow2z b := by
  rw [pow2z_eq, pow2z_eq, pow2z_eq]
  exact zpow_sub₀ (by norm_num) a b

theorem rat_bracket (q : ℚ) (hq : 0 < q) :
    pow2z ((bitlen q.num.natAbs : ℤ) - (bitlen q.den : ℤ) - 1) ≤ q ∧
    q < pow2z ((bitlen q.num.natAbs : ℤ) - (bitlen q.den : ℤ) + 1) := by
  have hnumpos : 0 < q.num := Rat.num_pos.mpr hq
  have hnum0 : q.num.natAbs ≠ 0 := by omega
  have hden0 : q.den ≠ 0 := q.den_nz
  obtain ⟨hn1, hn2⟩ := bitlen_bounds _ hnum0
  obtain ⟨hd1, hd2⟩ := bitlen_bounds _ hden0
  have hbn1 : 1 ≤ bitlen q.num.natAbs := bitlen_pos hnum0
  have hbd1 : 1 ≤ bitlen q.den := bitlen_pos hden0
  have hA : (2 : ℚ) ^ (bitlen q.num.natAbs - 1) ≤ (q.num.natAbs : ℚ) := by
    exact_mod_cast hn1
  have hB : (q.num.natAbs : ℚ) < 2 ^ bitlen q.num.natAbs := by exact_mod_cast hn2
  have hC : (2 : ℚ) ^ (bitlen q.den - 1) ≤ (q.den : ℚ) := by exact_mod_cast hd1
  have hD : (q.den : ℚ) < 2 ^ bitlen q.den := by exact_mod_cast hd2
  have hnum_eq : ((q.num.natAbs : ℕ) : ℚ) = (q.num : ℚ) := by
    rw [Int.cast_natAbs]
    exact_mod_cast abs_of_pos hnumpos
  have hdenpos : (0 : ℚ) < (q.den : ℚ) := by
    have := q.pos
    exact_mod_cast this
  have hnumposq : (0 : ℚ) < (q.num : ℚ) := by exact_mod_cast hnumpos
  have hqeq : q = (q.num : ℚ) / (q.den : ℚ) := (Rat.num_div_den q).symm
  rw [hnum_eq] at hA hB
  set bn := bitlen q.num.natAbs with hbn
  set bd := bitlen q.den with hbd
  constructor
  · have hexp : (bn : ℤ) - (bd : ℤ) - 1 =
        ((bn - 1 : ℕ) : ℤ) - ((bd : ℕ) : ℤ) := by omega
    rw [hexp, pow2z_sub, pow2z_natCast, pow2z_natCast, hqeq]
    rw [div_le_div_iff (by positivity) hdenpos]
    exact mul_le_mul hA (le_of_lt hD) (le_of_lt hdenpos) (le_of_lt hnumposq)
  · have hexp : (bn : ℤ) - (bd : ℤ) + 1 =
        ((bn : ℕ) : ℤ) - ((bd - 1 : ℕ) : ℤ) := by omega
    rw [hexp, pow2z_sub, pow2z_natCast, pow2z_natCast, hqeq]
    rw [div_lt_div_iff hdenpos (by positivity)]
    have s1 : (q.num : ℚ) * 2 ^ (bd - 1) < 2 ^ bn * 2 ^ (bd - 1) :=
      mul_lt_mul_of_pos_right hB (by positivity)
    have s2 : (2 : ℚ) ^ bn * 2 ^ (bd - 1) ≤ 2 ^ bn * (q.den : ℚ) :=
      mul_le_mul_of_nonneg_left hC (by positivity)
    linarith

theorem fp64_eval_pos {q : ℚ} {e m : ℤ} (hq : 0 < q)
    (h1 : pow2z e ≤ q) (h2 : q < pow2z (e + 1))
    (hm : rhe (q * pow2z (52 - e)) = m) :
    fp64 q = (m : ℚ) * pow2z (e - 52) := by
  have hne : q ≠ 0 := ne_of_gt hq
  have hns : ¬ q < 0 := not_lt.mpr (le_of_lt hq)
  have habs : |q| = q := abs_of_pos hq
  obtain ⟨hb1, hb2⟩ := rat_bracket q hq
  unfold fp64
  rw [if_neg hne]
  simp only [if_neg hns, habs]
  by_cases hc : pow2z ((bitlen q.num.natAbs : ℤ) - (bitlen q.den : ℤ)) ≤ q
  · rw [if_pos hc]
    have he : e = (bitlen q.num.natAbs : ℤ) - (bitlen q.den : ℤ) :=
      pow2z_bracket_unique h1 h2 hc hb2
    rw [← he, hm]
    ring
  · rw [if_neg hc]
    have hlt : q < pow2z ((bitlen q.num.natAbs : ℤ) - (bitlen q.den : ℤ)) :=
      not_le.mp hc
    have he : e = (bitlen q.num.natAbs : ℤ) - (bitlen q.den : ℤ) - 1 := by
      apply pow2z_bracket_unique h1 h2 hb1
      rwa [sub_add_cancel]
    rw [← he, hm]
    ring

/-- The exponent suffix of a `float()` literal: empty, or `e`/`E` followed by
an optionally signed nonempty digit string; returns the factor `10^exp`. -/
def parseExpPart : List Char → Option ℚ
  | [] => some 1
  | c :: r =>
    if c = 'e' ∨ c = 'E' then
      match r with
      | [] => none
      | d :: t =>
        if d = '-' then
          if t ≠ [] ∧ t.all isDigitCh then some (((10 : ℚ) ^ digitsVal t)⁻¹)
          else none
        else if d = '+' then
          if t ≠ [] ∧ t.all isDigitCh then some ((10 : ℚ) ^ digitsVal t)
          else none
        else
          if (d :: t).all isDigitCh then some ((10 : ℚ) ^ digitsVal (d :: t))
          else none
    else none

/-- The unsigned part of a `float()` literal: `digits [. digits]` or
`. digits`, optionally followed by an exponent; exact rational value. -/
def parseUnsignedFloat (cs : List Char) : Option ℚ :=
  let ip := cs.takeWhile isDigitCh
  let r1 := cs.dropWhile isDigitCh
  match r1 with
  | c :: r2 =>
    if c = '.' then
      let fpart := r2.takeWhile isDigitCh
      let r3 := r2.dropWhile isDigitCh
      if ip.isEmpty && fpart.isEmpty then none
      else
        match parseExpPart r3 with
        | none => none
        | some ex => some ((digitsVal (ip ++ fpart) : ℚ) / 10 ^ fpart.length * ex)
    else
      if ip.isEmpty then none
      else
        match parseExpPart (c :: r2) with
        | none => none
        | some ex => some ((digitsVal ip : ℚ) * ex)
  | [] =>
    if ip.isEmpty then none else some ((digitsVal ip : ℚ))

/-- The exact rational value of a string accepted by CPython `float()`
(sign, decimal digits with optional point, optional exponent; the special
forms `inf`/`nan`, embedded underscores and surrounding whitespace are not
modelled — no claim exercises them). `none` models `ValueError`. -/
def parseFloat (s : String) : Option ℚ :=
  match s.data with
  | [] => none
  | c :: cs =>
    if c = '-' then (parseUnsignedFloat cs).map (fun v => -v)
    else if c = '+' then parseUnsignedFloat cs
    else parseUnsignedFloat (c :: cs)

/-- CPython `float(s)`: the exact decimal value, correctly rounded to
binary64 (ties to even). -/
def pyFloat (s : String) : Option ℚ := (parseFloat s).map fp64

/-- CPython `f"{x:.2f}"` for a binary64 value `x`: the exact value is
correctly rounded to two decimal places, ties to even, and printed with a
sign, an unpadded integer part and exactly two fractional digits. -/
def formatTwoDec (q : ℚ) : String :=
  ⟨(if q < 0 then ['-'] else []) ++
    natDigits ((rhe (|q| * 100)).toNat / 100) ++
    '.' :: pad2 ((rhe (|q| * 100)).toNat % 100)⟩

/-- CPython `round(x, 2)` on a binary64 `x`: correctly rounded to the
nearest multiple of 1/100 (ties to even), then back to binary64. -/
def round2py (x : ℚ) : ℚ := fp64 ((rhe (x * 100) : ℚ) / 100)

/-- Binary64 addition: exact sum, rounded. -/
def fadd (x y : ℚ) : ℚ := fp64 (x + y)

/-- The `Expense` namedtuple: five string fields, exactly the shape of a CSV
data row. -/
structure Expense where
  id : String
  date : String
  amount : String
  category : String
  description : String
deriving DecidableEq

/-- The tracker state: the in-memory list `self.expenses` and the backing
CSV file, modelled as its list of data rows (the constant header row is
implicit; the `csv` module round-trips each field verbatim). -/
structure TrackerState where
  expenses : List Expense
  file : List Expense
deriving DecidableEq

/-- One row of `ExpenseTracker.load`: `float(r["amount"])` must succeed and
the date must parse `"%Y-%m-%d"`; the record is kept with the re-formatted
amount and stripped category/description.  `none` means the row is
skipped. -/
def loadRow (r : Expense) : Option Expense :=
  match pyFloat r.amount with
  | none => none
  | some amt =>
    match parseDate r.date with
    | none => none
    | some _ =>
      some ⟨r.id, r.date, formatTwoDec amt, pyStrip r.category,
            pyStrip r.description⟩

/-- The loop body of `ExpenseTracker.load()` over all rows. -/
def load_rows (rows : List Expense) : List Expense := rows.filterMap loadRow

/-- Model of `ExpenseTracker.load()`: replace the in-memory list by the validated
rows of the backing file. -/
def load (s : TrackerState) : TrackerState :=
  { s with expenses := load_rows s.file }

/-- Model of `ExpenseTracker.__init__` on a backing file holding the given data rows
(`_ensure_file` creates just the header when the file is absent — the
`rows = []` case — and then `load()` runs). -/
def init_tracker (rows : List Expense) : TrackerState :=
  { expenses := load_rows rows, file := rows }

/-- The date prologue of `add_expense`: default to today when absent,
otherwise the string must parse as `%Y-%m-%d` or a `ValueError` is
raised. -/
def resolveDate (today : Nat × Nat × Nat) :
    Option String → Except String (Nat × Nat × Nat)
  | none => Except.ok today
  | some ds =>
    match parseDate ds with
    | some t => Except.ok t
    | none => Except.error ("Date must be in YYYY-MM-DD format. Got: " ++ ds)

/-- Model of `ExpenseTracker.add_expense(amount, category, date, description)`.  The
fresh uuid and today's date are explicit model inputs.  The date is
validated first, then the amount; an error (Python `ValueError`) leaves the
state untouched, mirroring that the method raises before any mutation.  On
success the new record is appended to memory and to the file. -/
def add_expense (freshId : String) (today : Nat × Nat × Nat)
    (amount category : String) (date : Option String) (description : String)
    (s : TrackerState) : TrackerState × Except String Expense :=
  match resolveDate today date with
  | Except.error msg => (s, Except.error msg)
  | Except.ok t =>
    match pyFloat amount with
    | none => (s, Except.error ("Amount must be a number."))
    | some amt =>
      let new : Expense :=
        ⟨freshId, formatDate t, formatTwoDec amt, pyStrip category,
         pyStrip description⟩
      ({ expenses := s.expenses ++ [new], file := s.file ++ [new] },
       Except.ok new)

/-- Model of `ExpenseTracker.delete_expense(expense_id)`: drop the records with
exactly this id from memory; if nothing was dropped return `False` and do
not touch the file, otherwise rewrite the file as header plus the remaining
records and return `True`. -/
def delete_expense (expense_id : String) (s : TrackerState) :
    TrackerState × Bool :=
  let kept := s.expenses.filter (fun e => e.id != expense_id)
  if kept.length = s.expenses.length then (s, false)
  else ({ expenses := kept, file := kept }, true)

/-- The year/month/category tests of `list_expenses` on one record whose
parsed date is `t`: an omitted filter matches everything, the category
comparison is case-insensitive. -/
def matchesFilters (year month : Option Nat) (category : Option String)
    (t : Nat × Nat × Nat) (e : Expense) : Bool :=
  (match year with
   | none => true
   | some y => t.1 == y) &&
  (match month with
   | none => true
   | some m => t.2.1 == m) &&
  (match category with
   | none => true
   | some c => lowerStr e.category == lowerStr c)

/-- The filter loop of `list_expenses`: every date is re-parsed with no
guard, so `none` models the uncaught `ValueError` on a stored date that
fails to parse; otherwise the records passing the filters are kept in
order. -/
def selectExpenses (year month : Option Nat) (category : Option String) :
    List Expense → Option (List Expense)
  | [] => some []
  | e :: es =>
    match parseDate e.date with
    | none => none
    | some t =>
      match selectExpenses year month category es with
      | none => none
      | some r =>
        some (if matchesFilters year month category t e then e :: r else r)

/-- Record-level filter predicate (the claims' description of which records
`list_expenses` returns). -/
def recordMatches (year month : Option Nat) (category : Option String)
    (e : Expense) : Bool :=
  match parseDate e.date with
  | none => false
  | some t => matchesFilters year month category t e

/-- The sort comparison of `list_expenses` (`key=lambda x: x.date`,
`reverse=True`): strict date-string comparison. -/
def dateLt (a b : Expense) : Bool := lexLt a.date.data b.date.data

/-- Model of `ExpenseTracker.list_expenses(year, month, category, limit)`.  Note the
final `if limit:` — `None` and `0` are both falsy in Python, so a limit of
`0` returns the whole sorted result. -/
def list_expenses (es : List Expense) (year month : Option Nat)
    (category : Option String) (limit : Option Nat) : Option (List Expense) :=
  match selectExpenses year month category es with
  | none => none
  | some results =>
    some (match limit with
          | none => sortByDesc dateLt results
          | some n =>
            if n ≠ 0 then (sortByDesc dateLt results).take n
            else sortByDesc dateLt results)

/-- Model of `totals[e.category]["amount"] += amt` and the count bump
on the insertion-ordered association list that models the `defaultdict`:
float accumulation, starting from `0.0`. -/
def bumpCat : List (String × ℚ × Nat) → String → ℚ → List (String × ℚ × Nat)
  | [], c, a => [(c, fadd 0 a, 1)]
  | (c', a', n') :: t, c, a =>
    if c' = c then (c', fadd a' a, n' + 1) :: t
    else (c', a', n') :: bumpCat t c a

/-- The accumulation loop of `monthly_report`: per-category sums and counts
plus the running grand total, every addition in binary64. -/
def accumTotals : List Expense → List (String × ℚ × Nat) → ℚ →
    Option (List (String × ℚ × Nat) × ℚ)
  | [], acc, ts => some (acc, ts)
  | e :: es, acc, ts =>
    match pyFloat e.amount with
    | none => none
    | some amt => accumTotals es (bumpCat acc e.category amt) (fadd ts amt)

/-- The report dictionary returned by `monthly_report`: categories in
first-seen order, each amount already `round(_, 2)`-ed. -/
structure Report where
  year : Nat
  month : Nat
  categories : List (String × ℚ × Nat)
  total_spent : ℚ

/-- Model of `ExpenseTracker.monthly_report(year, month)`. -/
def monthly_report (es : List Expense) (year month : Nat) : Option Report :=
  match list_expenses es (some year) (some month) none none with
  | none => none
  | some items =>
    match accumTotals items [] 0 with
    | none => none
    | some (totals, ts) =>
      some { year := year, month := month,
             categories := totals.map (fun p => (p.1, round2py p.2.1, p.2.2)),
             total_spent := round2py ts }

/-- The header row written by `export_report_csv`. -/
def headerRow : List String := ["Category", "Total Amount", "Count"]

/-- The list of rows written by `ExpenseTracker.export_report_csv` (the
file content; writing itself is I/O). -/
def export_report_csv_rows (r : Report) : List (List String) :=
  (headerRow ::
    r.categories.map (fun p => [p.1, formatTwoDec p.2.1, natStr p.2.2]))
    ++ [[], ["Total", formatTwoDec r.total_spent, ""]]

/-- Model of `datetime(year, month, 1).strftime("%B")`: the full month name;
`none` models the `ValueError` of `datetime` on a month outside 1..12. -/
def monthName : Nat → Option String
  | 1 => some ("January")
  | 2 => some ("February")
  | 3 => some ("March")
  | 4 => some ("April")
  | 5 => some ("May")
  | 6 => some ("June")
  | 7 => some ("July")
  | 8 => some ("August")
  | 9 => some ("September")
  | 10 => some ("October")
  | 11 => some ("November")
  | 12 => some ("December")
  | _ => none

/-- The separator line `"=" * 40`. -/
def sepLine : String := ⟨List.replicate 40 '='⟩

/-- The sort comparison of the narrative export
(`key=lambda x: -x[1]["amount"]`, ascending, i.e. amount descending). -/
def amountLt (a b : String × ℚ × Nat) : Bool := decide (a.2.1 < b.2.1)

/-- The lines written by `ExpenseTracker.export_report_text` (joined with
newlines in the file); `none` models the `ValueError` of
`datetime(year, month, 1)` on an out-of-range year or month. -/
def export_report_text_lines (r : Report) : Option (List String) :=
  (monthName r.month).bind (fun mn =>
    if 1 ≤ r.year ∧ r.year ≤ 9999 then
      some (["Monthly Report - " ++ mn ++ " " ++ natStr r.year, sepLine, ""]
        ++ (if r.categories.isEmpty then
              ["No expenses recorded for this month."]
            else
              (sortByDesc amountLt r.categories).map
                (fun p => p.1 ++ ": ₹" ++ formatTwoDec p.2.1 ++ " (" ++
                  natStr p.2.2 ++ " items)")
              ++ ["", "Total Spent: ₹" ++ formatTwoDec r.total_spent]))
    else none)

/-- Model of `"\n".join(lines)`: the file content of the narrative export. -/
def export_report_text (r : Report) : Option String :=
  (export_report_text_lines r).map (String.intercalate ("\n"))

/-- Python `int(s)` for the count column when the tabular file is re-parsed. -/
def parseNatStr (s : String) : Option Nat :=
  if s.data ≠ [] ∧ s.data.all isDigitCh then some (digitsVal s.data) else none

/-- Modelled from the spec: "exportTabular(report) followed by re-parsing
the tabular file".  The re-parser reads the rows between the header and the
blank trailer row and recovers (category, amount, count) from each, the
amount as the exact decimal value of its cell. -/
def parse_tabular (rows : List (List String)) : List (String × ℚ × Nat) :=
  ((rows.drop 1).takeWhile (fun row => row ≠ [])).map
    (fun row => (row.getD 0 "", (parseFloat (row.getD 1 "")).getD 0,
                 (parseNatStr (row.getD 2 "")).getD 0))

theorem selectExpenses_nil (year month : Option Nat) (category : Option String) :
    selectExpenses year month category [] = some [] := rfl

theorem selectExpenses_cons (year month : Option Nat) (category : Option String)
    (e : Expense) (es : List Expense) :
    selectExpenses year month category (e :: es) =
      match parseDate e.date with
      | none => none
      | some t =>
        match selectExpenses year month category es with
        | none => none
        | some r =>
          some (if matchesFilters year month category t e then e :: r else r) :=
  rfl

theorem selectExpenses_eq (year month : Option Nat) (category : Option String)
    (es : List Expense) (h : ∀ e ∈ es, (parseDate e.date).isSome) :
    selectExpenses year month category es =
      some (es.filter (recordMatches year month category)) := by
  induction es with
  | nil => rfl
  | cons e es ih =>
    obtain ⟨t, ht⟩ := Option.isSome_iff_exists.mp (h e (by simp))
    rw [selectExpenses_cons, ht, ih (fun x hx => h x (by simp [hx]))]
    rw [List.filter_cons]
    have hrm : recordMatches year month category e =
        matchesFilters year month category t e := by
      unfold recordMatches
      rw [ht]
    rw [hrm]

theorem dateLt_asymm : ∀ a b : Expense, dateLt a b = true → dateLt b a = false :=
  fun a b h => lexLt_asymm _ _ h

theorem dateLt_trans : ∀ a b c : Expense,
    dateLt a b = true → dateLt b c = true → dateLt a c = true :=
  fun _ _ _ h1 h2 => lexLt_trans _ _ _ h1 h2

/-- C2: for every id, `delete_expense` returns `true` exactly when a record
with that id was present; when it returns `true` that record is absent from
memory and the file is rewritten as header plus the remaining records (in
order); when it returns `false` the whole state is unchanged. -/
theorem claim2_delete_contract (s : TrackerState) (id : String) :
    ((delete_expense id s).2 = true ↔ ∃ e ∈ s.expenses, e.id = id) ∧
    ((delete_expense id s).2 = true →
      (∀ e ∈ (delete_expense id s).1.expenses, e.id ≠ id) ∧
      (delete_expense id s).1.expenses =
        s.expenses.filter (fun e => e.id != id) ∧
      (delete_expense id s).1.file = (delete_expense id s).1.expenses) ∧
    ((delete_expense id s).2 = false → (delete_expense id s).1 = s) := by
  unfold delete_expense
  by_cases h : (s.expenses.filter (fun e => e.id != id)).length =
      s.expenses.length
  · rw [if_pos h]
    have hall := List.filter_length_eq_length.mp h
    refine ⟨⟨fun hb => absurd hb (by simp), ?_⟩,
            fun hb => absurd hb (by simp), fun _ => rfl⟩
    rintro ⟨e, he, heid⟩
    have := hall e he
    simp [bne] at this
    exact absurd heid this
  · rw [if_neg h]
    have hex : ∃ e ∈ s.expenses, e.id = id := by
      by_contra hno
      push_neg at hno
      apply h
      apply List.filter_length_eq_length.mpr
      intro a ha
      simp [bne]
      exact hno a ha
    refine ⟨⟨fun _ => hex, fun _ => rfl⟩, fun _ => ⟨?_, rfl, rfl⟩,
            fun hb => absurd hb (by simp)⟩
    intro e he
    have := (List.mem_filter.mp he).2
    simpa [bne] using this

/-- C2 witness: deleting the only record of a concrete one-record store
returns `true` and empties memory and file. -/
theorem claim2_delete_contract_witness :
    ((delete_expense ("id-1")
        ⟨[⟨"id-1", "2024-03-15", "10.00", "Food", ""⟩],
         [⟨"id-1", "2024-03-15", "10.00", "Food", ""⟩]⟩).2 = true ↔
      ∃ e ∈ [(⟨"id-1", "2024-03-15", "10.00", "Food", ""⟩ : Expense)],
        e.id = "id-1") ∧
    ((delete_expense ("id-1")
        ⟨[⟨"id-1", "2024-03-15", "10.00", "Food", ""⟩],
         [⟨"id-1", "2024-03-15", "10.00", "Food", ""⟩]⟩).2 = true →
      (∀ e ∈ (delete_expense ("id-1")
          ⟨[⟨"id-1", "2024-03-15", "10.00", "Food", ""⟩],
           [⟨"id-1", "2024-03-15", "10.00", "Food", ""⟩]⟩).1.expenses,
        e.id ≠ "id-1") ∧
      (delete_expense ("id-1")
          ⟨[⟨"id-1", "2024-03-15", "10.00", "Food", ""⟩],
           [⟨"id-1", "2024-03-15", "10.00", "Food", ""⟩]⟩).1.expenses =
        [(⟨"id-1", "2024-03-15", "10.00", "Food", ""⟩ : Expense)].filter
          (fun e => e.id != "id-1") ∧
      (delete_expense ("id-1")
          ⟨[⟨"id-1", "2024-03-15", "10.00", "Food", ""⟩],
           [⟨"id-1", "2024-03-15", "10.00", "Food", ""⟩]⟩).1.file =
        (delete_expense ("id-1")
          ⟨[⟨"id-1", "2024-03-15", "10.00", "Food", ""⟩],
           [⟨"id-1", "2024-03-15", "10.00", "Food", ""⟩]⟩).1.expenses) ∧
    ((delete_expense ("id-1")
        ⟨[⟨"id-1", "2024-03-15", "10.00", "Food", ""⟩],
         [⟨"id-1", "2024-03-15", "10.00", "Food", ""⟩]⟩).2 = false →
      (delete_expense ("id-1")
          ⟨[⟨"id-1", "2024-03-15", "10.00", "Food", ""⟩],
           [⟨"id-1", "2024-03-15", "10.00", "Food", ""⟩]⟩).1 =
        ⟨[⟨"id-1", "2024-03-15", "10.00", "Food", ""⟩],
         [⟨"id-1", "2024-03-15", "10.00", "Food", ""⟩]⟩) :=
  claim2_delete_contract
    ⟨[⟨"id-1", "2024-03-15", "10.00", "Food", ""⟩],
     [⟨"id-1", "2024-03-15", "10.00", "Food", ""⟩]⟩ ("id-1")

/-- A sample valid record used by several concrete instances. -/
def eSample : Expense := ⟨"id-1", "2024-03-15", "10.00", "Food", ""⟩

/-- A second sample record with a later date. -/
def eSample2 : Expense := ⟨"id-2", "2024-03-16", "4.50", "Transport", "bus"⟩

/-- C6 counterexample: the claim promises at most `limit` elements for every
supplied limit *including 0*, but `if limit:` treats a 0 limit as absent:
on a one-record store, `list_expenses` with limit 0 returns the full
one-element list instead of the empty prefix. -/
theorem claim6_limit_counterexample :
    list_expenses [eSample] none none none (some 0) = some [eSample] ∧
    [eSample] ≠ ([] : List Expense) := by
  constructor
  · rfl
  · simp

/-- C6 amended: for every *nonzero* limit, `list_expenses` returns exactly
the first `limit` elements of the sorted filtered result (hence at most
`limit` of them); a limit of 0 is treated like an absent limit and returns
the whole sorted result. -/
theorem claim6_limit_amended (es : List Expense) (year month : Option Nat)
    (category : Option String) (n : Nat) (s : List Expense)
    (h : list_expenses es year month category none = some s) :
    (n ≠ 0 → list_expenses es year month category (some n) = some (s.take n) ∧
      (s.take n).length ≤ n) ∧
    (n = 0 → list_expenses es year month category (some n) = some s) := by
  unfold list_expenses at h ⊢
  cases hsel : selectExpenses year month category es with
  | none => rw [hsel] at h; exact absurd h (by simp)
  | some results =>
    rw [hsel] at h
    have hs : sortByDesc dateLt results = s := by
      simpa using h
    constructor
    · intro hn
      constructor
      · simp only [if_pos hn, hs]
      · exact List.length_take_le n s
    · intro hn
      subst hn
      simp [hs]

/-- C6 witness: on a concrete two-record store with limit 1, the amended
theorem applies and returns the one latest-dated record. -/
theorem claim6_limit_amended_witness :
    (1 ≠ 0 → list_expenses [eSample, eSample2] none none none (some 1) =
        some ([eSample2, eSample].take 1) ∧
      ([eSample2, eSample].take 1).length ≤ 1) ∧
    (1 = 0 → list_expenses [eSample, eSample2] none none none (some 1) =
        some [eSample2, eSample]) :=
  claim6_limit_amended [eSample, eSample2] none none none 1
    [eSample2, eSample] (by rfl)

/-- C3: with every stored date parseable (the situation of every state the
program itself builds), `list_expenses` without limit returns exactly the
records whose parsed date matches the year/month filters and whose category
matches case-insensitively — as a multiset — sorted by date string in
descending lexicographic order, and `[]` on the empty store. -/
theorem claim3_list_filter_sort (es : List Expense) (year month : Option Nat)
    (category : Option String)
    (h : ∀ e ∈ es, (parseDate e.date).isSome) :
    ∃ r, list_expenses es year month category none = some r ∧
      r.Perm (es.filter (recordMatches year month category)) ∧
      r.Pairwise (fun a b => lexLe b.date.data a.date.data = true) ∧
      (es = [] → r = []) := by
  refine ⟨sortByDesc dateLt (es.filter (recordMatches year month category)),
    ?_, ?_, ?_, ?_⟩
  · unfold list_expenses
    rw [selectExpenses_eq year month category es h]
  · exact sortByDesc_perm _ _
  · have hp := sortByDesc_pairwise dateLt_asymm dateLt_trans
      (es.filter (recordMatches year month category))
    refine hp.imp ?_
    intro a b hab
    unfold dateLt at hab
    unfold lexLe
    rw [hab]
    rfl
  · intro he
    subst he
    rfl

/-- C3 witness: a concrete two-record store, filtered to March 2024 with a
case-insensitive category match. -/
theorem claim3_list_filter_sort_witness :
    ∃ r, list_expenses [eSample, eSample2] (some 2024) (some 3)
        (some ("food")) none = some r ∧
      r.Perm ([eSample, eSample2].filter
        (recordMatches (some 2024) (some 3) (some ("food")))) ∧
      r.Pairwise (fun a b => lexLe b.date.data a.date.data = true) ∧
      ([eSample, eSample2] = ([] : List Expense) → r = []) :=
  claim3_list_filter_sort [eSample, eSample2] (some 2024) (some 3)
    (some ("food")) (by decide)

theorem load_rows_eq (rows : List Expense) :
    load_rows rows = (rows.filter (fun r =>
      (pyFloat r.amount).isSome && (parseDate r.date).isSome)).map
      (fun r => ⟨r.id, r.date, formatTwoDec ((pyFloat r.amount).getD 0),
                 pyStrip r.category, pyStrip r.description⟩) := by
  induction rows with
  | nil => rfl
  | cons r rows ih =>
    show List.filterMap loadRow (r :: rows) = _
    rw [List.filterMap_cons]
    cases ha : pyFloat r.amount with
    | none =>
      have h1 : loadRow r = none := by
        unfold loadRow
        rw [ha]
      have h2 : ((pyFloat r.amount).isSome && (parseDate r.date).isSome)
          = false := by
        rw [ha]
        rfl
      rw [h1, List.filter_cons, if_neg (by rw [h2]; simp)]
      exact ih
    | some amt =>
      cases hd : parseDate r.date with
      | none =>
        have h1 : loadRow r = none := by
          unfold loadRow
          rw [ha, hd]
        have h2 : ((pyFloat r.amount).isSome && (parseDate r.date).isSome)
            = false := by
          rw [ha, hd]
          rfl
        rw [h1, List.filter_cons, if_neg (by rw [h2]; simp)]
        exact ih
      | some t =>
        have h1 : loadRow r = some ⟨r.id, r.date, formatTwoDec amt,
            pyStrip r.category, pyStrip r.description⟩ := by
          unfold loadRow
          rw [ha, hd]
        have h2 : ((pyFloat r.amount).isSome && (parseDate r.date).isSome)
            = true := by
          rw [ha, hd]
          rfl
        have h3 : (pyFloat r.amount).getD 0 = amt := by
          rw [ha]
          rfl
        unfold load_rows at ih
        rw [h1, List.filter_cons, if_pos (by rw [h2]), List.map_cons, h3, ih]

/-- C5: `load` never fails on malformed rows: the in-memory collection is
replaced by exactly the file rows whose amount parses as a float and whose
date parses as `%Y-%m-%d` (in file order, stored the way `load` normalises
them: amount re-formatted to two decimals, category and description
stripped); every other row is skipped; the file itself is untouched. -/
theorem claim5_load_skips_invalid_rows (s : TrackerState) :
    (load s).expenses = (s.file.filter (fun r =>
      (pyFloat r.amount).isSome && (parseDate r.date).isSome)).map
      (fun r => ⟨r.id, r.date, formatTwoDec ((pyFloat r.amount).getD 0),
                 pyStrip r.category, pyStrip r.description⟩) ∧
    (load s).file = s.file := by
  exact ⟨load_rows_eq s.file, rfl⟩

/-- C5 witness: a concrete file with one non-numeric-amount row and one
invalid-date row loads only the remaining valid row, without failing. -/
theorem claim5_load_skips_invalid_rows_witness :
    (load ⟨[], [⟨"a", "2024-03-15", "abc", "Food", ""⟩,
               ⟨"b", "2024-13-01", "7.00", "Food", ""⟩,
               eSample]⟩).expenses =
      ([⟨"a", "2024-03-15", "abc", "Food", ""⟩,
        ⟨"b", "2024-13-01", "7.00", "Food", ""⟩,
        eSample].filter (fun r =>
          (pyFloat r.amount).isSome && (parseDate r.date).isSome)).map
      (fun r => ⟨r.id, r.date, formatTwoDec ((pyFloat r.amount).getD 0),
                 pyStrip r.category, pyStrip r.description⟩) ∧
    (load ⟨[], [⟨"a", "2024-03-15", "abc", "Food", ""⟩,
               ⟨"b", "2024-13-01", "7.00", "Food", ""⟩,
               eSample]⟩).file =
      [⟨"a", "2024-03-15", "abc", "Food", ""⟩,
       ⟨"b", "2024-13-01", "7.00", "Food", ""⟩,
       eSample] :=
  claim5_load_skips_invalid_rows
    ⟨[], [⟨"a", "2024-03-15", "abc", "Food", ""⟩,
          ⟨"b", "2024-13-01", "7.00", "Food", ""⟩,
          eSample]⟩

theorem resolveDate_none (today : Nat × Nat × Nat) :
    resolveDate today none = Except.ok today := rfl

theorem resolveDate_some_bad {ds : String} (today : Nat × Nat × Nat)
    (h : parseDate ds = none) :
    resolveDate today (some ds) =
      Except.error ("Date must be in YYYY-MM-DD format. Got: " ++ ds) := by
  show (match parseDate ds with
        | some t => Except.ok t
        | none =>
          Except.error ("Date must be in YYYY-MM-DD format. Got: " ++ ds)) =
    Except.error ("Date must be in YYYY-MM-DD format. Got: " ++ ds)
  rw [h]

theorem resolveDate_some_ok {ds : String} {t : Nat × Nat × Nat}
    (today : Nat × Nat × Nat) (h : parseDate ds = some t) :
    resolveDate today (some ds) = Except.ok t := by
  show (match parseDate ds with
        | some t => Except.ok t
        | none =>
          Except.error ("Date must be in YYYY-MM-DD format. Got: " ++ ds)) =
    Except.ok t
  rw [h]

theorem add_expense_ok {freshId : String} {today : Nat × Nat × Nat}
    {amount category : String} {date : Option String} {description : String}
    {s : TrackerState} {t : Nat × Nat × Nat} {amt : ℚ}
    (hd : resolveDate today date = Except.ok t)
    (ha : pyFloat amount = some amt) :
    add_expense freshId today amount category date description s =
      ({ expenses := s.expenses ++
          [⟨freshId, formatDate t, formatTwoDec amt, pyStrip category,
            pyStrip description⟩],
         file := s.file ++
          [⟨freshId, formatDate t, formatTwoDec amt, pyStrip category,
            pyStrip description⟩] },
       Except.ok ⟨freshId, formatDate t, formatTwoDec amt, pyStrip category,
         pyStrip description⟩) := by
  unfold add_expense
  rw [hd, ha]

/-- C1: when the date argument fails to parse as `%Y-%m-%d` (for example
`"2024-13-01"`) or the amount fails to parse as a float (for example
`"abc"`), `add_expense` fails with a `ValueError` and performs no mutation:
memory and backing file are exactly as before and no row is appended. -/
theorem claim1_add_invalid_no_mutation (freshId : String)
    (today : Nat × Nat × Nat) (amount category : String)
    (date : Option String) (description : String) (s : TrackerState)
    (h : (∃ ds, date = some ds ∧ parseDate ds = none) ∨
         pyFloat amount = none) :
    (add_expense freshId today amount category date description s).1 = s ∧
    ∃ msg, (add_expense freshId today amount category date description s).2 =
      Except.error msg := by
  rcases h with ⟨ds, hdate, hpd⟩ | hpf
  · subst hdate
    unfold add_expense
    rw [resolveDate_some_bad today hpd]
    exact ⟨rfl, _, rfl⟩
  · unfold add_expense
    cases hres : resolveDate today date with
    | error msg => exact ⟨rfl, _, rfl⟩
    | ok t =>
      rw [hpf]
      exact ⟨rfl, _, rfl⟩

/-- C1 witness: adding with the malformed date `"2024-13-01"` on a concrete
one-record store fails and leaves the store unchanged. -/
theorem claim1_add_invalid_no_mutation_witness :
    (add_expense ("u-2") (2024, 3, 15) ("12.5") ("Food")
        (some ("2024-13-01")) ("") ⟨[eSample], [eSample]⟩).1 =
      ⟨[eSample], [eSample]⟩ ∧
    ∃ msg, (add_expense ("u-2") (2024, 3, 15) ("12.5") ("Food")
        (some ("2024-13-01")) ("") ⟨[eSample], [eSample]⟩).2 =
      Except.error msg :=
  claim1_add_invalid_no_mutation ("u-2") (2024, 3, 15) ("12.5") ("Food")
    (some ("2024-13-01")) ("") ⟨[eSample], [eSample]⟩
    (Or.inl ⟨"2024-13-01", rfl, by decide⟩)

/-- C8: the tabular export consists of exactly the header row, one row per
category in mapping order (amount formatted to two decimals, count as an
integer string), a blank row, and a final `Total` row. -/
theorem claim8_tabular_rows (r : Report) :
    (export_report_csv_rows r).length = r.categories.length + 3 ∧
    (export_report_csv_rows r)[0]? = some headerRow ∧
    (∀ i, (h : i < r.categories.length) →
      (export_report_csv_rows r)[i + 1]? =
        some [(r.categories[i]).1, formatTwoDec (r.categories[i]).2.1,
              natStr (r.categories[i]).2.2]) ∧
    (export_report_csv_rows r)[r.categories.length + 1]? = some [] ∧
    (export_report_csv_rows r)[r.categories.length + 2]? =
      some ["Total", formatTwoDec r.total_spent, ""] := by
  unfold export_report_csv_rows
  rw [List.cons_append]
  refine ⟨?_, by rw [List.getElem?_cons_zero], ?_, ?_, ?_⟩
  · simp
  · intro i h
    rw [List.getElem?_cons_succ, List.getElem?_append_left
      (by simpa using h), List.getElem?_map, List.getElem?_eq_getElem h]
    rfl
  · rw [List.getElem?_cons_succ, List.getElem?_append_right
      (by simp), List.length_map]
    simp
  · rw [List.getElem?_cons_succ, List.getElem?_append_right
      (by simp), List.length_map]
    simp

/-- A sample report used by concrete instances. -/
def rSample : Report := ⟨2024, 3, [("Food", 150, 2)], 170⟩

/-- C8 witness: the category row of a concrete one-category report sits at
index 1 with the formatted amount and the count as an integer string. -/
theorem claim8_tabular_rows_witness :
    (export_report_csv_rows rSample)[0 + 1]? =
      some [(rSample.categories[0]).1,
            formatTwoDec (rSample.categories[0]).2.1,
            natStr (rSample.categories[0]).2.2] :=
  (claim8_tabular_rows rSample).2.2.1 0 (by decide)

theorem takeWhile_append_all {α : Type} {p : α → Bool} {l₁ : List α}
    (h : ∀ x ∈ l₁, p x = true) (l₂ : List α) :
    (l₁ ++ l₂).takeWhile p = l₁ ++ l₂.takeWhile p := by
  induction l₁ with
  | nil => simp
  | cons c t ih =>
    rw [List.cons_append, List.takeWhile_cons, if_pos (h c (by simp)),
      List.cons_append, ih (fun x hx => h x (by simp [hx]))]

theorem dropWhile_append_all {α : Type} {p : α → Bool} {l₁ : List α}
    (h : ∀ x ∈ l₁, p x = true) (l₂ : List α) :
    (l₁ ++ l₂).dropWhile p = l₂.dropWhile p := by
  induction l₁ with
  | nil => simp
  | cons c t ih =>
    rw [List.cons_append, List.dropWhile_cons_of_pos (h c (by simp)),
      ih (fun x hx => h x (by simp [hx]))]

theorem takeWhile_all {α : Type} {p : α → Bool} {l : List α}
    (h : ∀ x ∈ l, p x = true) : l.takeWhile p = l := by
  induction l with
  | nil => rfl
  | cons c t ih =>
    rw [List.takeWhile_cons, if_pos (h c (by simp)),
      ih (fun x hx => h x (by simp [hx]))]

theorem dropWhile_all {α : Type} {p : α → Bool} {l : List α}
    (h : ∀ x ∈ l, p x = true) : l.dropWhile p = [] := by
  induction l with
  | nil => rfl
  | cons c t ih =>
    rw [List.dropWhile_cons_of_pos (h c (by simp)),
      ih (fun x hx => h x (by simp [hx]))]

theorem parseNatStr_natStr (n : Nat) : parseNatStr (natStr n) = some n := by
  unfold parseNatStr natStr
  rw [if_pos ⟨natDigits_ne_nil n, by
    rw [List.all_eq_true]
    exact natDigits_all_digit n⟩]
  rw [digitsVal_natDigits]

theorem parseUnsignedFloat_format (n : Nat) :
    parseUnsignedFloat (natDigits (n / 100) ++ '.' :: pad2 (n % 100)) =
      some ((n : ℚ) / 100) := by
  have hdig := natDigits_all_digit (n / 100)
  have hdot : isDigitCh '.' = false := by decide
  have hpad := pad2_all_digit (n % 100)
  have hlt : n % 100 < 100 := Nat.mod_lt _ (by omega)
  unfold parseUnsignedFloat
  rw [takeWhile_append_all hdig, dropWhile_append_all hdig]
  rw [List.takeWhile_cons, if_neg (by rw [hdot]; simp),
    List.dropWhile_cons_of_neg (by rw [hdot]; simp)]
  simp only [List.append_nil]
  rw [if_true]
  rw [takeWhile_all hpad, dropWhile_all hpad]
  rw [if_neg (by
    intro hc
    have := (Bool.and_eq_true _ _).mp hc
    have h1 := this.1
    rw [List.isEmpty_iff] at h1
    exact natDigits_ne_nil _ h1)]
  show some ((digitsVal (natDigits (n / 100) ++ pad2 (n % 100)) : ℚ) /
    10 ^ (pad2 (n % 100)).length * 1) = _
  rw [digitsVal_append, digitsVal_natDigits, digitsVal_pad2 hlt,
    pad2_length hlt]
  push_cast
  have : (n : ℚ) = (n / 100 : ℕ) * 10 ^ 2 + (n % 100 : ℕ) := by
    push_cast
    have hsplit : (n / 100) * 100 + n % 100 = n := by
      have := Nat.div_add_mod n 100
      omega
    have : ((n / 100) * 100 + n % 100 : ℕ) = (n : ℕ) := hsplit
    exact_mod_cast congrArg (fun k : ℕ => (k : ℚ)) this.symm
  rw [this]
  push_cast
  ring

theorem parseFloat_formatTwoDec (a : ℚ) :
    ∃ v, parseFloat (formatTwoDec a) = some v ∧ |v - a| ≤ 1/100 := by
  have hz : 0 ≤ rhe (|a| * 100) := rhe_nonneg (by positivity)
  have hcast : (((rhe (|a| * 100)).toNat : ℕ) : ℚ) = ((rhe (|a| * 100) : ℤ) : ℚ) := by
    exact_mod_cast congrArg (fun z : ℤ => (z : ℚ)) (Int.toNat_of_nonneg hz)
  have hbound : abs ((((rhe (|a| * 100)).toNat : ℕ) : ℚ) / 100 - |a|) ≤
      1/100 := by
    have h1 := rhe_sub_le (|a| * 100)
    rw [hcast]
    rw [abs_le] at h1 ⊢
    constructor
    · linarith [h1.1]
    · linarith [h1.2]
  set n : Nat := (rhe (|a| * 100)).toNat with hn
  by_cases hneg : a < 0
  · refine ⟨-((n : ℚ) / 100), ?_, ?_⟩
    · unfold formatTwoDec parseFloat
      rw [if_pos hneg]
      show (parseUnsignedFloat (natDigits (n / 100) ++ '.' :: pad2 (n % 100))).map
          (fun v => -v) = _
      rw [parseUnsignedFloat_format]
      rfl
    · have habs : |a| = -a := abs_of_neg hneg
      rw [habs] at hbound
      have : -((n : ℚ) / 100) - a = -((n : ℚ) / 100 - -a) := by ring
      rw [this, abs_neg]
      exact hbound
  · refine ⟨(n : ℚ) / 100, ?_, ?_⟩
    · unfold formatTwoDec parseFloat
      rw [if_neg hneg]
      have hne : natDigits (n / 100) ≠ [] := natDigits_ne_nil _
      cases hd : natDigits (n / 100) with
      | nil => exact absurd hd hne
      | cons c cs =>
        have hcdig : isDigitCh c = true := by
          apply natDigits_all_digit (n / 100)
          rw [hd]
          simp
        have hcne1 : ¬ c = '-' := by
          intro hc
          rw [hc] at hcdig
          exact absurd hcdig (by decide)
        have hcne2 : ¬ c = '+' := by
          intro hc
          rw [hc] at hcdig
          exact absurd hcdig (by decide)
        show (match (c :: cs ++ '.' :: pad2 (n % 100) : List Char) with
              | [] => none
              | c :: cs =>
                if c = '-' then (parseUnsignedFloat cs).map (fun v => -v)
                else if c = '+' then parseUnsignedFloat cs
                else parseUnsignedFloat (c :: cs)) = _
        rw [List.cons_append]
        show (if c = '-' then
                (parseUnsignedFloat (cs ++ '.' :: pad2 (n % 100))).map
                  (fun v => -v)
              else if c = '+' then
                parseUnsignedFloat (cs ++ '.' :: pad2 (n % 100))
              else parseUnsignedFloat (c :: (cs ++ '.' :: pad2 (n % 100)))) = _
        rw [if_neg hcne1, if_neg hcne2, ← List.cons_append, ← hd,
          parseUnsignedFloat_format]
    · have habs : |a| = a := abs_of_nonneg (not_lt.mp hneg)
      rw [habs] at hbound
      exact hbound

theorem parse_tabular_export (r : Report) :
    parse_tabular (export_report_csv_rows r) =
      r.categories.map (fun p =>
        (p.1, (parseFloat (formatTwoDec p.2.1)).getD 0, p.2.2)) := by
  unfold parse_tabular export_report_csv_rows
  rw [List.cons_append, List.drop_succ_cons, List.drop_zero]
  have hne : ∀ x ∈ r.categories.map
      (fun p => [p.1, formatTwoDec p.2.1, natStr p.2.2]),
      (fun row : List String => decide (row ≠ [])) x = true := by
    intro x hx
    obtain ⟨p, _, hp⟩ := List.mem_map.mp hx
    simp [← hp]
  rw [takeWhile_append_all hne]
  rw [List.takeWhile_cons, if_neg (by simp), List.append_nil, List.map_map]
  apply List.map_congr_left
  intro p _
  show (p.1, (parseFloat (formatTwoDec p.2.1)).getD 0,
        (parseNatStr (natStr p.2.2)).getD 0) = _
  rw [parseNatStr_natStr]
  rfl

/-- C9: re-parsing the rows written by the tabular export reconstructs the
report's category list pointwise — the same category names and counts, and
each reconstructed amount within 0.01 of the report's amount for that
category. -/
theorem claim9_tabular_roundtrip (r : Report) :
    List.Forall₂ (fun back orig => back.1 = orig.1 ∧
      abs (back.2.1 - orig.2.1) ≤ 1/100 ∧ back.2.2 = orig.2.2)
      (parse_tabular (export_report_csv_rows r)) r.categories := by
  rw [parse_tabular_export]
  generalize r.categories = l
  induction l with
  | nil => exact List.Forall₂.nil
  | cons p t ih =>
    rw [List.map_cons]
    refine List.Forall₂.cons ⟨rfl, ?_, rfl⟩ ih
    obtain ⟨v, hv, hb⟩ := parseFloat_formatTwoDec p.2.1
    rw [hv]
    simpa using hb

/-- The narrative layout exactly as claim 10 states it: a title line, then
a separator line, then directly either the no-expenses message or the
per-category lines in descending order of amount followed by a blank line
and the total line (`mn` is the full month name). -/
def claimNarrativeLines (r : Report) (mn : String) : List String :=
  ["Monthly Report - " ++ mn ++ " " ++ natStr r.year, sepLine]
    ++ (if r.categories.isEmpty then
          ["No expenses recorded for this month."]
        else
          (sortByDesc amountLt r.categories).map
            (fun p => p.1 ++ ": ₹" ++ formatTwoDec p.2.1 ++ " (" ++
              natStr p.2.2 ++ " items)")
          ++ ["", "Total Spent: ₹" ++ formatTwoDec r.total_spent])

/-- Claim 10 amended: the same layout with the blank line the code emits
between the separator and the body. -/
def amendedNarrativeLines (r : Report) (mn : String) : List String :=
  ["Monthly Report - " ++ mn ++ " " ++ natStr r.year, sepLine, ""]
    ++ (if r.categories.isEmpty then
          ["No expenses recorded for this month."]
        else
          (sortByDesc amountLt r.categories).map
            (fun p => p.1 ++ ": ₹" ++ formatTwoDec p.2.1 ++ " (" ++
              natStr p.2.2 ++ " items)")
          ++ ["", "Total Spent: ₹" ++ formatTwoDec r.total_spent])

/-- C10 counterexample: on the empty March-2024 report the code emits a
blank line between the separator and the body, so the produced lines are
not the sequence the claim describes. -/
theorem claim10_narrative_counterexample :
    export_report_text_lines ⟨2024, 3, [], 0⟩ =
      some ["Monthly Report - March 2024", sepLine, "",
            "No expenses recorded for this month."] ∧
    (["Monthly Report - March 2024", sepLine, "",
      "No expenses recorded for this month."] : List String) ≠
      claimNarrativeLines ⟨2024, 3, [], 0⟩ ("March") := by
  constructor
  · decide
  · decide

/-- C10 amended: for a valid month and year, the narrative export produces
the title line naming the full month and year, the separator line, a blank
line, and then either the no-expenses message or the category lines in
descending amount order followed by a blank line and the total line. -/
theorem claim10_narrative_amended (r : Report) (mn : String)
    (hm : monthName r.month = some mn) (hy1 : 1 ≤ r.year)
    (hy2 : r.year ≤ 9999) :
    export_report_text_lines r = some (amendedNarrativeLines r mn) := by
  unfold export_report_text_lines amendedNarrativeLines
  rw [hm, Option.some_bind, if_pos ⟨hy1, hy2⟩]

/-- C10 witness: the amended layout on a concrete one-category report. -/
theorem claim10_narrative_amended_witness :
    export_report_text_lines rSample =
      some (amendedNarrativeLines rSample ("March")) :=
  claim10_narrative_amended rSample ("March") (by decide) (by decide)
    (by decide)

theorem fp64_eval_exact {q : ℚ} {e z : ℤ} (hq : 0 < q)
    (h1 : pow2z e ≤ q) (h2 : q < pow2z (e + 1))
    (hint : q * pow2z (52 - e) = ((z : ℤ) : ℚ))
    (hback : ((z : ℤ) : ℚ) * pow2z (e - 52) = q) : fp64 q = q := by
  have hm : rhe (q * pow2z (52 - e)) = z := by
    rw [hint]
    exact rhe_int z
  rw [fp64_eval_pos hq h1 h2 hm, hback]

theorem formatTwoDec_eval {q : ℚ} {n : ℕ} (hq : ¬ q < 0)
    (hm : rhe (|q| * 100) = ((n : ℕ) : ℤ)) :
    formatTwoDec q = ⟨natDigits (n / 100) ++ '.' :: pad2 (n % 100)⟩ := by
  unfold formatTwoDec
  rw [if_neg hq, hm]
  rw [Int.toNat_natCast]
  rfl

theorem fp64_100 : fp64 ((100 : ℚ)) = 100 := by
  apply @fp64_eval_exact 100 6 7036874417766400 (by norm_num)
  · simp [pow2z]
    norm_num
  · simp [pow2z]
    norm_num
  · simp [pow2z]
    norm_num
  · simp [pow2z]
    norm_num

theorem fp64_20 : fp64 ((20 : ℚ)) = 20 := by
  apply @fp64_eval_exact 20 4 5629499534213120 (by norm_num)
  · simp [pow2z]
    norm_num
  · simp [pow2z]
    norm_num
  · simp [pow2z]
    norm_num
  · simp [pow2z]
    norm_num

theorem fp64_50005 : fp64 ((10001 : ℚ) / 200) = 7037578105208177 / 2 ^ 47 := by
  have hmul : (10001 : ℚ) / 200 * pow2z (52 - 5) = 1407515621041635328 / 200 := by
    simp [pow2z]
    norm_num
  have hm : rhe ((10001 : ℚ) / 200 * pow2z (52 - 5)) = 7037578105208177 := by
    rw [hmul]
    rw [@rhe_gt ((1407515621041635328 : ℚ) / 200) 7037578105208176
      (by norm_num) (by norm_num)]
    norm_num
  rw [@fp64_eval_pos ((10001 : ℚ) / 200) 5 7037578105208177 (by norm_num)
    (by simp [pow2z]; norm_num) (by simp [pow2z]; norm_num) hm]
  simp [pow2z]
  norm_num

theorem fp64_5001 : fp64 ((5001 : ℚ) / 100) = 7038281792649953 / 2 ^ 47 := by
  have hmul : (5001 : ℚ) / 100 * pow2z (52 - 5) = 703828179264995328 / 100 := by
    simp [pow2z]
    norm_num
  have hm : rhe ((5001 : ℚ) / 100 * pow2z (52 - 5)) = 7038281792649953 := by
    rw [hmul]
    rw [@rhe_lt ((703828179264995328 : ℚ) / 100) 7038281792649953
      (by norm_num) (by norm_num)]
  rw [@fp64_eval_pos ((5001 : ℚ) / 100) 5 7038281792649953 (by norm_num)
    (by simp [pow2z]; norm_num) (by simp [pow2z]; norm_num) hm]
  simp [pow2z]
  norm_num

theorem fp64_15001 : fp64 ((15001 : ℚ) / 100) = 5278007657045688 / 2 ^ 45 := by
  have hmul : (15001 : ℚ) / 100 * pow2z (52 - 7) = 527800765704568832 / 100 := by
    simp [pow2z]
    norm_num
  have hm : rhe ((15001 : ℚ) / 100 * pow2z (52 - 7)) = 5278007657045688 := by
    rw [hmul]
    rw [@rhe_lt ((527800765704568832 : ℚ) / 100) 5278007657045688
      (by norm_num) (by norm_num)]
  rw [@fp64_eval_pos ((15001 : ℚ) / 100) 7 5278007657045688 (by norm_num)
    (by simp [pow2z]; norm_num) (by simp [pow2z]; norm_num) hm]
  simp [pow2z]
  norm_num

theorem fp64_17001 : fp64 ((17001 : ℚ) / 100) = 5981695098822328 / 2 ^ 45 := by
  have hmul : (17001 : ℚ) / 100 * pow2z (52 - 7) = 598169509882232832 / 100 := by
    simp [pow2z]
    norm_num
  have hm : rhe ((17001 : ℚ) / 100 * pow2z (52 - 7)) = 5981695098822328 := by
    rw [hmul]
    rw [@rhe_lt ((598169509882232832 : ℚ) / 100) 5981695098822328
      (by norm_num) (by norm_num)]
  rw [@fp64_eval_pos ((17001 : ℚ) / 100) 7 5981695098822328 (by norm_num)
    (by simp [pow2z]; norm_num) (by simp [pow2z]; norm_num) hm]
  simp [pow2z]
  norm_num

theorem fp64_sum_food :
    fp64 ((100 : ℚ) + 7038281792649953 / 2 ^ 47) = 5278007657045688 / 2 ^ 45 := by
  have hq : (100 : ℚ) + 7038281792649953 / 2 ^ 47 =
      21112030628182753 / 2 ^ 47 := by norm_num
  rw [hq]
  have hmul : (21112030628182753 : ℚ) / 2 ^ 47 * pow2z (52 - 7) =
      21112030628182753 / 4 := by
    simp [pow2z]
    norm_num
  have hm : rhe ((21112030628182753 : ℚ) / 2 ^ 47 * pow2z (52 - 7)) =
      5278007657045688 := by
    rw [hmul]
    rw [@rhe_lt ((21112030628182753 : ℚ) / 4) 5278007657045688
      (by norm_num) (by norm_num)]
  rw [@fp64_eval_pos ((21112030628182753 : ℚ) / 2 ^ 47) 7 5278007657045688
    (by norm_num) (by simp [pow2z]; norm_num) (by simp [pow2z]; norm_num) hm]
  simp [pow2z]
  norm_num

theorem fp64_sum_total :
    fp64 ((5278007657045688 : ℚ) / 2 ^ 45 + 20) = 5981695098822328 / 2 ^ 45 := by
  have hq : (5278007657045688 : ℚ) / 2 ^ 45 + 20 =
      5981695098822328 / 2 ^ 45 := by norm_num
  rw [hq]
  apply @fp64_eval_exact ((5981695098822328 : ℚ) / 2 ^ 45) 7 5981695098822328
    (by norm_num)
  all_goals simp [pow2z]
  all_goals norm_num

theorem rhe_food100 : rhe ((7037578105208177 : ℚ) / 2 ^ 47 * 100) = 5001 := by
  rw [show (7037578105208177 : ℚ) / 2 ^ 47 * 100 =
    703757810520817700 / 2 ^ 47 by norm_num]
  rw [@rhe_gt ((703757810520817700 : ℚ) / 2 ^ 47) 5000 (by norm_num)
    (by norm_num)]
  norm_num

theorem rhe_v3_100 : rhe ((5278007657045688 : ℚ) / 2 ^ 45 * 100) = 15001 := by
  rw [show (5278007657045688 : ℚ) / 2 ^ 45 * 100 =
    527800765704568800 / 2 ^ 45 by norm_num]
  rw [@rhe_gt ((527800765704568800 : ℚ) / 2 ^ 45) 15000 (by norm_num)
    (by norm_num)]
  norm_num

theorem rhe_v4_100 : rhe ((5981695098822328 : ℚ) / 2 ^ 45 * 100) = 17001 := by
  rw [show (5981695098822328 : ℚ) / 2 ^ 45 * 100 =
    598169509882232800 / 2 ^ 45 by norm_num]
  rw [@rhe_gt ((598169509882232800 : ℚ) / 2 ^ 45) 17000 (by norm_num)
    (by norm_num)]
  norm_num

theorem rhe_100_100 : rhe ((100 : ℚ) * 100) = 10000 := by
  rw [show (100 : ℚ) * 100 = ((10000 : ℤ) : ℚ) by norm_num, rhe_int]

theorem rhe_20_100 : rhe ((20 : ℚ) * 100) = 2000 := by
  rw [show (20 : ℚ) * 100 = ((2000 : ℤ) : ℚ) by norm_num, rhe_int]

theorem formatTwoDec_100 : formatTwoDec ((100 : ℚ)) = "100.00" := by
  have hm : rhe (|(100 : ℚ)| * 100) = ((10000 : ℕ) : ℤ) := by
    rw [show |(100 : ℚ)| = 100 from abs_of_pos (by norm_num), rhe_100_100]
    norm_num
  rw [@formatTwoDec_eval 100 10000 (by norm_num) hm]
  decide

theorem formatTwoDec_20 : formatTwoDec ((20 : ℚ)) = "20.00" := by
  have hm : rhe (|(20 : ℚ)| * 100) = ((2000 : ℕ) : ℤ) := by
    rw [show |(20 : ℚ)| = 20 from abs_of_pos (by norm_num), rhe_20_100]
    norm_num
  rw [@formatTwoDec_eval 20 2000 (by norm_num) hm]
  decide

theorem formatTwoDec_food :
    formatTwoDec ((7037578105208177 : ℚ) / 2 ^ 47) = "50.01" := by
  have hm : rhe (|(7037578105208177 : ℚ) / 2 ^ 47| * 100) = ((5001 : ℕ) : ℤ) := by
    rw [show |(7037578105208177 : ℚ) / 2 ^ 47| = 7037578105208177 / 2 ^ 47
      from abs_of_pos (by norm_num), rhe_food100]
    norm_num
  rw [@formatTwoDec_eval ((7037578105208177 : ℚ) / 2 ^ 47) 5001
    (by norm_num) hm]
  decide

theorem formatTwoDec_v3 :
    formatTwoDec ((5278007657045688 : ℚ) / 2 ^ 45) = "150.01" := by
  have hm : rhe (|(5278007657045688 : ℚ) / 2 ^ 45| * 100) = ((15001 : ℕ) : ℤ) := by
    rw [show |(5278007657045688 : ℚ) / 2 ^ 45| = 5278007657045688 / 2 ^ 45
      from abs_of_pos (by norm_num), rhe_v3_100]
    norm_num
  rw [@formatTwoDec_eval ((5278007657045688 : ℚ) / 2 ^ 45) 15001
    (by norm_num) hm]
  decide

theorem formatTwoDec_v4 :
    formatTwoDec ((5981695098822328 : ℚ) / 2 ^ 45) = "170.01" := by
  have hm : rhe (|(5981695098822328 : ℚ) / 2 ^ 45| * 100) = ((17001 : ℕ) : ℤ) := by
    rw [show |(5981695098822328 : ℚ) / 2 ^ 45| = 5981695098822328 / 2 ^ 45
      from abs_of_pos (by norm_num), rhe_v4_100]
    norm_num
  rw [@formatTwoDec_eval ((5981695098822328 : ℚ) / 2 ^ 45) 17001
    (by norm_num) hm]
  decide

theorem pyFloat_100 : pyFloat ("100.00") = some 100 := by
  have h : parseFloat ("100.00") = some (((10000 : ℕ) : ℚ) / 10 ^ 2 * 1) := rfl
  unfold pyFloat
  rw [h]
  show some (fp64 (((10000 : ℕ) : ℚ) / 10 ^ 2 * 1)) = _
  rw [show ((10000 : ℕ) : ℚ) / 10 ^ 2 * 1 = 100 by norm_num, fp64_100]

theorem pyFloat_50005 :
    pyFloat ("50.005") = some ((7037578105208177 : ℚ) / 2 ^ 47) := by
  have h : parseFloat ("50.005") = some (((50005 : ℕ) : ℚ) / 10 ^ 3 * 1) := rfl
  unfold pyFloat
  rw [h]
  show some (fp64 (((50005 : ℕ) : ℚ) / 10 ^ 3 * 1)) = _
  rw [show ((50005 : ℕ) : ℚ) / 10 ^ 3 * 1 = 10001 / 200 by norm_num,
    fp64_50005]

theorem pyFloat_20 : pyFloat ("20.00") = some 20 := by
  have h : parseFloat ("20.00") = some (((2000 : ℕ) : ℚ) / 10 ^ 2 * 1) := rfl
  unfold pyFloat
  rw [h]
  show some (fp64 (((2000 : ℕ) : ℚ) / 10 ^ 2 * 1)) = _
  rw [show ((2000 : ℕ) : ℚ) / 10 ^ 2 * 1 = 20 by norm_num, fp64_20]

theorem pyFloat_5001 :
    pyFloat ("50.01") = some ((7038281792649953 : ℚ) / 2 ^ 47) := by
  have h : parseFloat ("50.01") = some (((5001 : ℕ) : ℚ) / 10 ^ 2 * 1) := rfl
  unfold pyFloat
  rw [h]
  show some (fp64 (((5001 : ℕ) : ℚ) / 10 ^ 2 * 1)) = _
  rw [show ((5001 : ℕ) : ℚ) / 10 ^ 2 * 1 = 5001 / 100 by norm_num, fp64_5001]

theorem round2py_v3 :
    round2py ((5278007657045688 : ℚ) / 2 ^ 45) = 5278007657045688 / 2 ^ 45 := by
  unfold round2py
  rw [rhe_v3_100, show (((15001 : ℤ) : ℚ)) / 100 = (15001 : ℚ) / 100
    by norm_num, fp64_15001]

theorem round2py_v4 :
    round2py ((5981695098822328 : ℚ) / 2 ^ 45) = 5981695098822328 / 2 ^ 45 := by
  unfold round2py
  rw [rhe_v4_100, show (((17001 : ℤ) : ℚ)) / 100 = (17001 : ℚ) / 100
    by norm_num, fp64_17001]

theorem round2py_20 : round2py ((20 : ℚ)) = 20 := by
  unfold round2py
  rw [rhe_20_100, show (((2000 : ℤ) : ℚ)) / 100 = (20 : ℚ) by norm_num,
    fp64_20]

theorem fadd_0_100 : fadd 0 100 = 100 := by
  unfold fadd
  rw [show (0 : ℚ) + 100 = 100 by norm_num, fp64_100]

theorem fadd_0_20 : fadd 0 20 = 20 := by
  unfold fadd
  rw [show (0 : ℚ) + 20 = 20 by norm_num, fp64_20]

theorem fadd_food :
    fadd 100 ((7038281792649953 : ℚ) / 2 ^ 47) = 5278007657045688 / 2 ^ 45 := by
  unfold fadd
  exact fp64_sum_food

theorem fadd_total :
    fadd ((5278007657045688 : ℚ) / 2 ^ 45) 20 = 5981695098822328 / 2 ^ 45 := by
  unfold fadd
  exact fp64_sum_total

theorem accumTotals_nil (acc : List (String × ℚ × Nat)) (ts : ℚ) :
    accumTotals [] acc ts = some (acc, ts) := rfl

theorem accumTotals_cons_some {e : Expense} {amt : ℚ}
    (es : List Expense) (acc : List (String × ℚ × Nat)) (ts : ℚ)
    (h : pyFloat e.amount = some amt) :
    accumTotals (e :: es) acc ts =
      accumTotals es (bumpCat acc e.category amt) (fadd ts amt) := by
  show (match pyFloat e.amount with
        | none => none
        | some amt => accumTotals es (bumpCat acc e.category amt)
            (fadd ts amt)) = _
  rw [h]

theorem bumpCat_nil (c : String) (a : ℚ) :
    bumpCat [] c a = [(c, fadd 0 a, 1)] := rfl

theorem bumpCat_cons (c' : String) (a' : ℚ) (n' : Nat)
    (t : List (String × ℚ × Nat)) (c : String) (a : ℚ) :
    bumpCat ((c', a', n') :: t) c a =
      if c' = c then (c', fadd a' a, n' + 1) :: t
      else (c', a', n') :: bumpCat t c a := rfl

theorem monthly_report_eval {es : List Expense} {year month : Nat}
    {items : List Expense} {totals : List (String × ℚ × Nat)} {ts : ℚ}
    (hl : list_expenses es (some year) (some month) none none = some items)
    (ha : accumTotals items [] 0 = some (totals, ts)) :
    monthly_report es year month =
      some ⟨year, month, totals.map (fun p => (p.1, round2py p.2.1, p.2.2)),
        round2py ts⟩ := by
  unfold monthly_report
  rw [hl]
  show (match accumTotals items [] 0 with
        | none => none
        | some (totals, ts) =>
          some (⟨year, month,
            totals.map (fun p : String × ℚ × Nat =>
              (p.1, round2py p.2.1, p.2.2)),
            round2py ts⟩ : Report)) = _
  rw [ha]

/-- The claim-4 scenario: an empty store into which `add_expense` enters
100.00 (Food), 50.005 (Food) and 20.00 (Transport), all dated 2024-03-15. -/
def c4state : TrackerState :=
  (add_expense ("u-3") (2024, 3, 15) ("20.00") ("Transport")
    (some ("2024-03-15")) ("")
    (add_expense ("u-2") (2024, 3, 15) ("50.005") ("Food")
      (some ("2024-03-15")) ("")
      (add_expense ("u-1") (2024, 3, 15) ("100.00") ("Food")
        (some ("2024-03-15")) ("") (init_tracker [])).1).1).1

theorem c4state_expenses :
    c4state.expenses =
      [⟨"u-1", "2024-03-15", "100.00", "Food", ""⟩,
       ⟨"u-2", "2024-03-15", "50.01", "Food", ""⟩,
       ⟨"u-3", "2024-03-15", "20.00", "Transport", ""⟩] := by
  unfold c4state
  rw [add_expense_ok (@resolveDate_some_ok ("2024-03-15") ((2024, 3, 15))
      ((2024, 3, 15)) (by decide)) pyFloat_100,
    add_expense_ok (@resolveDate_some_ok ("2024-03-15") ((2024, 3, 15))
      ((2024, 3, 15)) (by decide)) pyFloat_50005,
    add_expense_ok (@resolveDate_some_ok ("2024-03-15") ((2024, 3, 15))
      ((2024, 3, 15)) (by decide)) pyFloat_20]
  rw [formatTwoDec_100, formatTwoDec_food, formatTwoDec_20]
  rw [show formatDate (2024, 3, 15) = "2024-03-15" by decide]
  rw [show pyStrip ("Food") = "Food" by decide]
  rw [show pyStrip ("Transport") = "Transport" by decide]
  rw [show pyStrip ("") = "" by decide]
  rfl

/-- C4: on the three March-2024 records entered through `add_expense`
(100.00 Food, 50.005 Food, 20.00 Transport), `monthly_report 2024 3` yields
Food = the binary64 value written `150.01` (the double `float("150.01")`,
equal to 5278007657045688/2^45) with count 2, Transport = 20.00 with count
1, and total spent = the binary64 value written `170.01`; the 50.005 input
was stored as "50.01" under the 2-decimal rounding of `f"{amt:.2f}"`. -/
theorem claim4_monthly_report_march :
    monthly_report c4state.expenses 2024 3 =
      some ⟨2024, 3,
        [("Food", (5278007657045688 : ℚ) / 2 ^ 45, 2),
         ("Transport", (20 : ℚ), 1)],
        (5981695098822328 : ℚ) / 2 ^ 45⟩ ∧
    fp64 ((15001 : ℚ) / 100) = (5278007657045688 : ℚ) / 2 ^ 45 ∧
    fp64 ((17001 : ℚ) / 100) = (5981695098822328 : ℚ) / 2 ^ 45 ∧
    fp64 ((2000 : ℚ) / 100) = (20 : ℚ) ∧
    formatTwoDec ((5278007657045688 : ℚ) / 2 ^ 45) = "150.01" ∧
    formatTwoDec ((5981695098822328 : ℚ) / 2 ^ 45) = "170.01" ∧
    formatTwoDec ((20 : ℚ)) = "20.00" ∧
    c4state.expenses.map (fun e => e.amount) = ["100.00", "50.01", "20.00"] := by
  refine ⟨?_, fp64_15001, fp64_17001, ?_, formatTwoDec_v3, formatTwoDec_v4,
    formatTwoDec_20, ?_⟩
  · rw [c4state_expenses]
    have hlist : list_expenses
        [⟨"u-1", "2024-03-15", "100.00", "Food", ""⟩,
         ⟨"u-2", "2024-03-15", "50.01", "Food", ""⟩,
         ⟨"u-3", "2024-03-15", "20.00", "Transport", ""⟩]
        (some 2024) (some 3) none none =
      some [⟨"u-1", "2024-03-15", "100.00", "Food", ""⟩,
            ⟨"u-2", "2024-03-15", "50.01", "Food", ""⟩,
            ⟨"u-3", "2024-03-15", "20.00", "Transport", ""⟩] := by decide
    have hacc : accumTotals
        [⟨"u-1", "2024-03-15", "100.00", "Food", ""⟩,
         ⟨"u-2", "2024-03-15", "50.01", "Food", ""⟩,
         ⟨"u-3", "2024-03-15", "20.00", "Transport", ""⟩] [] 0 =
      some ([("Food", (5278007657045688 : ℚ) / 2 ^ 45, 2),
             ("Transport", (20 : ℚ), 1)],
            (5981695098822328 : ℚ) / 2 ^ 45) := by
      rw [accumTotals_cons_some _ _ _ pyFloat_100]
      rw [accumTotals_cons_some _ _ _ pyFloat_5001]
      rw [accumTotals_cons_some _ _ _ pyFloat_20]
      rw [accumTotals_nil]
      rw [bumpCat_nil, fadd_0_100]
      rw [bumpCat_cons, if_pos rfl, fadd_food]
      rw [bumpCat_cons, if_neg (by decide), bumpCat_nil, fadd_0_20]
      rw [fadd_total]
    rw [monthly_report_eval hlist hacc]
    rw [List.map_cons, List.map_cons, List.map_nil]
    rw [round2py_v3, round2py_20, round2py_v4]
  · rw [show (2000 : ℚ) / 100 = 20 by norm_num]
    exact fp64_20
  · rw [c4state_expenses]
    rfl

theorem list_expenses_fails {es : List Expense} {e : Expense}
    (he : e ∈ es) (hbad : parseDate e.date = none) (year month : Option Nat)
    (category : Option String) (limit : Option Nat) :
    list_expenses es year month category limit = none := by
  have hsel : ∀ es2 : List Expense, e ∈ es2 →
      selectExpenses year month category es2 = none := by
    intro es2
    induction es2 with
    | nil => intro h; exact absurd h (by simp)
    | cons x xs ih =>
      intro hmem
      rw [selectExpenses_cons]
      rcases List.mem_cons.mp hmem with h0 | h1
      · rw [← h0, hbad]
      · cases hx : parseDate x.date with
        | none => rfl
        | some t => rw [ih h1]
  unfold list_expenses
  rw [hsel es he]

/-- C7 (refuting theorem for the code bug): the claimed well-formedness
invariant fails on states the public operations build.  `add_expense` with
the valid date `"0005-01-02"` succeeds, but glibc `strftime("%Y...")` does
not zero-pad the year, so the record is stored with date `"5-01-02"`, which
no longer parses under `"%Y-%m-%d"` — and the unguarded re-parse in
`list_expenses` then fails (an uncaught `ValueError`). -/
theorem claim7_date_invariant_bug :
    ∃ amtStr,
      (add_expense ("u-1") (2024, 3, 15) ("5") ("Food")
          (some ("0005-01-02")) ("") (init_tracker [])).1.expenses =
        [⟨"u-1", "5-01-02", amtStr, "Food", ""⟩] ∧
      parseDate ("5-01-02") = none ∧
      list_expenses (add_expense ("u-1") (2024, 3, 15) ("5") ("Food")
          (some ("0005-01-02")) ("") (init_tracker [])).1.expenses
        none none none none = none := by
  have hd := @resolveDate_some_ok ("0005-01-02") ((5, 1, 2)) ((2024, 3, 15))
    (by decide)
  have hamt : pyFloat ("5") = some (fp64 (((5 : ℕ) : ℚ))) := rfl
  refine ⟨formatTwoDec (fp64 (((5 : ℕ) : ℚ))), ?_, by decide, ?_⟩
  · rw [add_expense_ok hd hamt]
    rw [show formatDate (5, 1, 2) = "5-01-02" by decide]
    rw [show pyStrip ("Food") = "Food" by decide]
    rw [show pyStrip ("") = "" by decide]
    rfl
  · rw [add_expense_ok hd hamt]
    exact @list_expenses_fails
      ((init_tracker []).expenses ++
        [⟨"u-1", formatDate (5, 1, 2), formatTwoDec (fp64 (((5 : ℕ) : ℚ))),
          pyStrip ("Food"), pyStrip ("")⟩])
      (⟨"u-1", formatDate (5, 1, 2), formatTwoDec (fp64 (((5 : ℕ) : ℚ))),
        pyStrip ("Food"), pyStrip ("")⟩)
      (by simp) (by decide) none none none none
